import Mathlib

/-!
Verification of the archive-metadata-tools repository.

Strings of the Python source are modelled as `List Char`.  Python regular
expressions are embedded as deterministic scanners; wherever a regex uses a
greedy or lazy quantifier, the scanner either enumerates the backtracking
alternatives in the engine's order, or uses maximal munch in the places where
maximal munch is equivalent to backtracking (the character after the
quantified class can never itself belong to the class — argued in comments at
the relevant definitions).
-/

namespace ArchiveSpec

/-- ASCII digit test (the `\\d` class; titles and dates in this system are
ASCII text, so the ASCII reading of `\\d` is faithful). -/
def isDigitC (c : Char) : Bool := 48 ≤ c.toNat && c.toNat ≤ 57

/-- Numeric value of a digit character, as used by `int()` on a digit. -/
def charVal (c : Char) : Nat := c.toNat - 48

/-- Value of a digit string, e.g. `int("2014") = 2014`. -/
def digitsToNat (l : List Char) : Nat := l.foldl (fun a c => a * 10 + charVal c) 0

/-- `span isDigit`: maximal leading run of digit characters, and the rest. -/
def spanDigits : List Char → List Char × List Char
  | [] => ([], [])
  | c :: r =>
    if isDigitC c then
      let p := spanDigits r
      (c :: p.1, p.2)
    else ([], c :: r)

/-- Python `str.zfill(2)`: left-pad with '0' to length 2. -/
def zfill2 (l : List Char) : List Char :=
  if 2 ≤ l.length then l else List.replicate (2 - l.length) '0' ++ l

/-- Render the digit `n ≤ 9` as a character (as `"%d"` does for one digit). -/
def digitChar (n : Nat) : Char := Char.ofNat (48 + n)

/-- Python `f"{n:02d}"` for `n ≤ 99` (all uses are bounded by 99). -/
def fmt2 (n : Nat) : List Char := [digitChar (n / 10 % 10), digitChar (n % 10)]

/-- Python `f"{n:04d}"` for `n ≤ 9999` (all uses are bounded by 9999). -/
def fmt4 (n : Nat) : List Char :=
  [digitChar (n / 1000 % 10), digitChar (n / 100 % 10), digitChar (n / 10 % 10),
   digitChar (n % 10)]

/-- Year component (first four characters) of a "YYYY-MM-DD" output, as a number. -/
def yearOfOut (s : List Char) : Nat := digitsToNat (s.take 4)

/-- Month component (characters 5-6) of a "YYYY-MM-DD" output, as a number. -/
def monthOfOut (s : List Char) : Nat := digitsToNat ((s.drop 5).take 2)

/-- Day component (characters 8-9) of a "YYYY-MM-DD" output, as a number. -/
def dayOfOut (s : List Char) : Nat := digitsToNat ((s.drop 8).take 2)

/-- The string "-01-01". -/
def jan1 : List Char := ['-', '0', '1', '-', '0', '1']

namespace Analyze

/-!
Embedding of `analyze_metadata.py`.
-/

/-- Full anchored match of `^(\d{1,2})sep(\d{1,2})sep(\d{ylen})$` (the shape of
the four slash/dot patterns of `standardize_date`).  Maximal munch is
equivalent to the regex here: `\d{1,2}` is followed by the non-digit `sep`
(resp. by `$`), so any unconsumed digit makes every backtracking alternative
fail as well. -/
def matchSep (sep : Char) (ylen : Nat) (s : List Char) :
    Option (List Char × List Char × List Char) :=
  let p1 := spanDigits s
  if 1 ≤ p1.1.length ∧ p1.1.length ≤ 2 then
    match p1.2 with
    | c1 :: r1 =>
      if c1 = sep then
        let p2 := spanDigits r1
        if 1 ≤ p2.1.length ∧ p2.1.length ≤ 2 then
          match p2.2 with
          | c2 :: r2 =>
            if c2 = sep then
              let p3 := spanDigits r2
              if p3.1.length = ylen ∧ p3.2 = [] then some (p1.1, p2.1, p3.1) else none
            else none
          | [] => none
        else none
      else none
    | [] => none
  else none

/-- Anchored prefix match of `^(\d{4}-\d{2}-\d{2})T` (ISO timestamp); returns
the captured date-only group. -/
def matchISOStart : List Char → Option (List Char)
  | y1 :: y2 :: y3 :: y4 :: '-' :: m1 :: m2 :: '-' :: d1 :: d2 :: 'T' :: _ =>
    if isDigitC y1 ∧ isDigitC y2 ∧ isDigitC y3 ∧ isDigitC y4 ∧ isDigitC m1 ∧ isDigitC m2 ∧
        isDigitC d1 ∧ isDigitC d2 then
      some [y1, y2, y3, y4, '-', m1, m2, '-', d1, d2]
    else none
  | _ => none

/-- Full anchored match of `^\d{4}-\d{2}-\d{2}$`. -/
def matchYMDFull : List Char → Bool
  | [y1, y2, y3, y4, '-', m1, m2, '-', d1, d2] =>
    isDigitC y1 && isDigitC y2 && isDigitC y3 && isDigitC y4 && isDigitC m1 && isDigitC m2 &&
      isDigitC d1 && isDigitC d2
  | _ => false

/-- Full anchored match of `^\d{4}$`. -/
def matchYYYYFull : List Char → Bool
  | [y1, y2, y3, y4] => isDigitC y1 && isDigitC y2 && isDigitC y3 && isDigitC y4
  | _ => false

/-- `standardize_date` of `analyze_metadata.py` (lines 163-210): ordered
anchored patterns, first match wins, unrecognized input returned unchanged.
Slash forms are read month/day/year, dot forms day/month/year; two-digit years
are prefixed with "20". -/
def standardize_date (s : List Char) : List Char :=
  if s = [] then s
  else
    match matchSep '/' 2 s with
    | some (m, d, y) => '2' :: '0' :: y ++ '-' :: zfill2 m ++ '-' :: zfill2 d
    | none =>
      match matchSep '/' 4 s with
      | some (m, d, y) => y ++ '-' :: zfill2 m ++ '-' :: zfill2 d
      | none =>
        match matchSep '.' 2 s with
        | some (d, m, y) => '2' :: '0' :: y ++ '-' :: zfill2 m ++ '-' :: zfill2 d
        | none =>
          match matchSep '.' 4 s with
          | some (d, m, y) => y ++ '-' :: zfill2 m ++ '-' :: zfill2 d
          | none =>
            match matchISOStart s with
            | some ymd => ymd
            | none =>
              if matchYMDFull s then s
              else if matchYYYYFull s then s ++ jan1
              else s

/-- True exactly when one of `standardize_date`'s recognized shapes matched
(the function did not take the "Unrecognized date format" fall-through). -/
def recognizedDate (s : List Char) : Bool :=
  s ≠ [] &&
    ((matchSep '/' 2 s).isSome || (matchSep '/' 4 s).isSome ||
      (matchSep '.' 2 s).isSome || (matchSep '.' 4 s).isSome ||
      (matchISOStart s).isSome || matchYMDFull s || matchYYYYFull s)

/-!
Free-text date extraction (`extract_date_from_title`, lines 129-161).
`re.search` semantics: the leftmost position admitting a match wins; at a
given position the greedy `\d{1,2}` alternatives are explored longest-first.
-/

/-- Match exactly `n` digits at the head; returns the digits and the rest. -/
def takeDigitsN : Nat → List Char → Option (List Char × List Char)
  | 0, r => some ([], r)
  | n + 1, c :: r =>
    if isDigitC c then (takeDigitsN n r).map (fun p => (c :: p.1, p.2)) else none
  | _ + 1, [] => none

/-- Try a match at the head of every suffix, leftmost first (`re.search`). -/
def searchBy {α : Type} (f : List Char → Option α) : List Char → Option α
  | [] => f []
  | c :: r => (f (c :: r)).orElse (fun _ => searchBy f r)

/-- `\d{4}-\d{2}-\d{2}` at the current position. -/
def isoAt (s : List Char) : Option (List Char × List Char × List Char) :=
  match takeDigitsN 4 s with
  | some (y, '-' :: r1) =>
    match takeDigitsN 2 r1 with
    | some (m, '-' :: r2) =>
      match takeDigitsN 2 r2 with
      | some (d, _) => some (y, m, d)
      | _ => none
    | _ => none
  | _ => none

/-- One backtracking alternative of `\d{1,2}sep\d{1,2}sep\d{ylen}` with fixed
widths `am` and `ad` for the two `\d{1,2}` groups. -/
def fixedAt (sep : Char) (am ad ylen : Nat) (s : List Char) :
    Option (List Char × List Char × List Char) :=
  match takeDigitsN am s with
  | some (m, c1 :: r1) =>
    if c1 = sep then
      match takeDigitsN ad r1 with
      | some (d, c2 :: r2) =>
        if c2 = sep then
          match takeDigitsN ylen r2 with
          | some (y, _) => some (m, d, y)
          | none => none
        else none
      | _ => none
    else none
  | _ => none

/-- `\d{1,2}sep\d{1,2}sep\d{ylen}` at the current position, exploring the
greedy alternatives in the regex engine's order (first group longest first,
then second group). -/
def mdyAt (sep : Char) (ylen : Nat) (s : List Char) :
    Option (List Char × List Char × List Char) :=
  (fixedAt sep 2 2 ylen s).orElse fun _ =>
    (fixedAt sep 2 1 ylen s).orElse fun _ =>
      (fixedAt sep 1 2 ylen s).orElse fun _ => fixedAt sep 1 1 ylen s

/-- `(\d{4})` at the current position. -/
def yearAt (s : List Char) : Option (List Char) :=
  match takeDigitsN 4 s with
  | some (y, _) => some y
  | none => none

/-- Gregorian leap year, as `datetime` uses it. -/
def isLeap (y : Nat) : Bool := y % 4 = 0 && (y % 100 ≠ 0 || y % 400 = 0)

/-- Number of days of month `m` of year `y` (`datetime`'s calendar). -/
def daysInMonth (y m : Nat) : Nat :=
  if m = 2 then (if isLeap y then 29 else 28)
  else if m = 4 ∨ m = 6 ∨ m = 9 ∨ m = 11 then 30
  else 31

/-- The validation `datetime.strptime` performs on a parsed year/month/day
triple: it constructs a `datetime`, which requires a real calendar date. -/
def strptimeValid (y m d : Nat) : Bool :=
  1 ≤ y && y ≤ 9999 && 1 ≤ m && m ≤ 12 && 1 ≤ d && d ≤ daysInMonth y m

/-- CPython `strptime` `%y`: 00-68 → 2000-2068, 69-99 → 1969-1999 (stated in
the comment at line 153 of `analyze_metadata.py`). -/
def pyTwoDigitYear (yy : Nat) : Nat := if yy ≤ 68 then 2000 + yy else 1900 + yy

/-- `f"{parsed.year:04d}-{parsed.month:02d}-{parsed.day:02d}"`. -/
def renderYMD (y m d : Nat) : List Char := fmt4 y ++ '-' :: fmt2 m ++ '-' :: fmt2 d

/-- Validate a year/month/day digit-group triple through `strptime` and render
it; `none` models the `ValueError` branch (`continue`). -/
def validateYMD (y m d : List Char) : Option (List Char) :=
  let yn := digitsToNat y
  let mn := digitsToNat m
  let dn := digitsToNat d
  if strptimeValid yn mn dn then some (renderYMD yn mn dn) else none

/-- Same, for the `%y` two-digit-year formats. -/
def validateMDY2 (m d yy : List Char) : Option (List Char) :=
  let yn := pyTwoDigitYear (digitsToNat yy)
  let mn := digitsToNat m
  let dn := digitsToNat d
  if strptimeValid yn mn dn then some (renderYMD yn mn dn) else none

/-- `extract_date_from_title` (lines 129-161): six ordered patterns; for each,
only the first (leftmost) regex match is considered, and a `ValueError` from
`strptime` silently moves on to the next pattern.  The bare-year pattern is
returned without any validation. -/
def extract_date_from_title (t : List Char) : Option (List Char) :=
  ((searchBy isoAt t).bind fun g => validateYMD g.1 g.2.1 g.2.2).orElse fun _ =>
    ((searchBy (mdyAt '/' 4) t).bind fun g => validateYMD g.2.2 g.1 g.2.1).orElse fun _ =>
      ((searchBy (mdyAt '.' 4) t).bind fun g => validateYMD g.2.2 g.1 g.2.1).orElse fun _ =>
        ((searchBy (mdyAt '/' 2) t).bind fun g => validateMDY2 g.1 g.2.1 g.2.2).orElse fun _ =>
          ((searchBy (mdyAt '.' 2) t).bind fun g => validateMDY2 g.1 g.2.1 g.2.2).orElse fun _ =>
            (searchBy yearAt t).map fun y => y ++ jan1

/-!
Band extraction (`extract_band_from_title`, lines 77-98).  The three patterns
are anchored (`^`) and case sensitive.
-/

/-- Python `str.strip()`: remove leading and trailing whitespace. -/
def stripWs (s : List Char) : List Char :=
  ((s.dropWhile Char.isWhitespace).reverse.dropWhile Char.isWhitespace).reverse

/-- `\s*@` at the current position (maximal munch: '@' is not whitespace). -/
def wsThenAmp : List Char → Bool
  | [] => false
  | c :: r => if c = '@' then true else if c.isWhitespace then wsThenAmp r else false

/-- The lazy group of `^([^@]+?)\s*@`: grow the group one character at a
time (each character must not be '@') and after each step test whether the
tail of the pattern matches the remaining input; smallest success wins. -/
def bandAmpGo (acc : List Char) : List Char → Option (List Char)
  | [] => none
  | c :: r =>
    if c = '@' then none
    else if wsThenAmp r then some (acc ++ [c]) else bandAmpGo (acc ++ [c]) r

/-- `\s*` then continuation `k` (maximal munch; sound whenever `k` can only
start with a non-whitespace character, true at every use below). -/
def wsStarThen (k : List Char → Bool) : List Char → Bool
  | [] => k []
  | c :: r => if c.isWhitespace then wsStarThen k r else k (c :: r)

/-- `\s+` then continuation `k` (same maximal-munch argument). -/
def wsPlusThen (k : List Char → Bool) : List Char → Bool
  | [] => false
  | c :: r => c.isWhitespace && wsStarThen k r

/-- Lazy group `(.+?)` (any character) followed by a tail test: smallest
nonempty group whose remainder satisfies `term` wins. -/
def lazyDot (term : List Char → Bool) (acc : List Char) : List Char → Option (List Char)
  | [] => none
  | c :: r => if term r then some (acc ++ [c]) else lazyDot term (acc ++ [c]) r

/-- Tail `\s+on\s+\d` of band pattern 2 (case sensitive). -/
def bandOnTail : List Char → Bool :=
  wsPlusThen fun l =>
    match l with
    | 'o' :: 'n' :: r =>
      wsPlusThen (fun l2 => match l2 with
        | c :: _ => isDigitC c
        | [] => false) r
    | _ => false

/-- Tail `\s+in\s+\d` of band pattern 3 (case sensitive). -/
def bandInTail : List Char → Bool :=
  wsPlusThen fun l =>
    match l with
    | 'i' :: 'n' :: r =>
      wsPlusThen (fun l2 => match l2 with
        | c :: _ => isDigitC c
        | [] => false) r
    | _ => false

/-- Lowercasing, as `str.lower()` on the ASCII band names involved. -/
def lowerList (s : List Char) : List Char := s.map Char.toLower

/-- The stoplist of line 95. -/
def bandStoplist : List (List Char) :=
  ["live".data, "show".data, "concert".data, "performance".data]

/-- The filter of lines 93-96: strip, require length > 2, and require the
lowercased name not to be in the stoplist. -/
def bandCheck (cand : List Char) : Option (List Char) :=
  let b := stripWs cand
  if 2 < b.length ∧ ¬ bandStoplist.contains (lowerList b) then some b else none

/-- `extract_band_from_title` (lines 77-98): ordered patterns
`^([^@]+?)\s*@`, `^(.+?)\s+on\s+\d`, `^(.+?)\s+in\s+\d`; the first pattern
whose (stripped) group passes `bandCheck` wins. -/
def extract_band_from_title (t : List Char) : Option (List Char) :=
  ((bandAmpGo [] t).bind bandCheck).orElse fun _ =>
    ((lazyDot bandOnTail [] t).bind bandCheck).orElse fun _ =>
      (lazyDot bandInTail [] t).bind bandCheck

/-!
Venue extraction (`extract_venue_from_title`, lines 100-127).  Six ordered
patterns, matched case-insensitively (`re.I`).  The `\s+` after the
delimiter is taken with maximal munch; a backtracked (shorter) whitespace
run can only produce a group whose extra prefix is whitespace, with the same
candidate terminator positions, so it yields a surviving candidate exactly
when the maximal-munch run does (any extra match strips to a string that the
length-2 filter rejects) — the extracted venue is unchanged.
-/

/-- Case-insensitive match of one pattern letter (`re.I`). -/
def ciIs (c tgt : Char) : Bool := c.toLower = tgt

/-- `\s+` then drop the whitespace run; `none` if no leading whitespace. -/
def wsPlusDrop : List Char → Option (List Char)
  | [] => none
  | c :: r => if c.isWhitespace then some (r.dropWhile Char.isWhitespace) else none

/-- Tail `\s*\(` of the parenthesis-terminated venue patterns. -/
def wsStarOpen : List Char → Bool :=
  wsStarThen fun l =>
    match l with
    | '(' :: _ => true
    | _ => false

/-- Terminator `(?:\s+on\s|\s+\[|\s+\d{4}|$)` of the fallback venue patterns
(`on` case-insensitive under `re.I`). -/
def venueTerm (l : List Char) : Bool :=
  wsPlusThen (fun l2 =>
    match l2 with
    | a :: b :: c :: _ => ciIs a 'o' && ciIs b 'n' && c.isWhitespace
    | _ => false) l ||
  wsPlusThen (fun l2 =>
    match l2 with
    | '[' :: _ => true
    | _ => false) l ||
  wsPlusThen (fun l2 => (takeDigitsN 4 l2).isSome) l ||
  l.isEmpty

/-- Lazy group with a per-character class test, then a tail test. -/
def lazyGroup (ok : Char → Bool) (term : List Char → Bool) (acc : List Char) :
    List Char → Option (List Char)
  | [] => none
  | c :: r =>
    if ok c then
      if term r then some (acc ++ [c]) else lazyGroup ok term (acc ++ [c]) r
    else none

/-- Venue pattern 1: `@\s+([^(]+?)\s*\(`. -/
def venue1At : List Char → Option (List Char)
  | '@' :: r => (wsPlusDrop r).bind (lazyGroup (· ≠ '(') wsStarOpen [])
  | _ => none

/-- Venue pattern 2: `@\s+(.+?)(?:\s+on\s|\s+\[|\s+\d{4}|$)`. -/
def venue2At : List Char → Option (List Char)
  | '@' :: r => (wsPlusDrop r).bind (lazyGroup (fun _ => true) venueTerm [])
  | _ => none

/-- Python `\w` (ASCII view, as for `\d`). -/
def isWordChar (c : Char) : Bool := c.isAlphanum || c = '_'

/-- The word boundary `\b` before "at": previous character absent or
non-word (the following character, 'a', is a word character). -/
def bndOk : Option Char → Bool
  | none => true
  | some c => !isWordChar c

/-- Venue pattern 3: `\bat\s+([^(]+?)\s*\(` (case-insensitive). -/
def venue3At (prev : Option Char) : List Char → Option (List Char)
  | a :: t :: r =>
    if bndOk prev && ciIs a 'a' && ciIs t 't' then
      (wsPlusDrop (t :: r).tail).bind (lazyGroup (· ≠ '(') wsStarOpen [])
    else none
  | _ => none

/-- Venue pattern 4: `\bat\s+(.+?)(?:\s+on\s|\s+\[|\s+\d{4}|$)`. -/
def venue4At (prev : Option Char) : List Char → Option (List Char)
  | a :: t :: r =>
    if bndOk prev && ciIs a 'a' && ciIs t 't' then
      (wsPlusDrop (t :: r).tail).bind (lazyGroup (fun _ => true) venueTerm [])
    else none
  | _ => none

/-- After `live\s+`, expect `at\s+` then the group matcher `g`. -/
def liveAtThen (g : List Char → Option (List Char)) (r : List Char) :
    Option (List Char) :=
  (wsPlusDrop r).bind fun r2 =>
    match r2 with
    | a :: t :: r3 => if ciIs a 'a' && ciIs t 't' then (wsPlusDrop (t :: r3).tail).bind g else none
    | _ => none

/-- Venue pattern 5: `live\s+at\s+([^(]+?)\s*\(` (case-insensitive). -/
def venue5At : List Char → Option (List Char)
  | c1 :: c2 :: c3 :: c4 :: r =>
    if ciIs c1 'l' && ciIs c2 'i' && ciIs c3 'v' && ciIs c4 'e' then
      liveAtThen (lazyGroup (· ≠ '(') wsStarOpen []) r
    else none
  | _ => none

/-- Venue pattern 6: `live\s+at\s+(.+?)(?:\s+on\s|\s+\[|\s+\d{4}|$)`. -/
def venue6At : List Char → Option (List Char)
  | c1 :: c2 :: c3 :: c4 :: r =>
    if ciIs c1 'l' && ciIs c2 'i' && ciIs c3 'v' && ciIs c4 'e' then
      liveAtThen (lazyGroup (fun _ => true) venueTerm []) r
    else none
  | _ => none

/-- `re.search` carrying the previous character (for `\b`). -/
def searchPrev {α : Type} (f : Option Char → List Char → Option α) :
    Option Char → List Char → Option α
  | prev, [] => f prev []
  | prev, c :: r => (f prev (c :: r)).orElse fun _ => searchPrev f (some c) r

/-- `\s*\([^)]*\)` at the current position; returns the rest after the
match.  Maximal munch throughout: after `\s*` a '(' is required, and after
`[^)]*` a ')' is required. -/
def parenAt (s : List Char) : Option (List Char) :=
  match s.dropWhile Char.isWhitespace with
  | '(' :: r =>
    match r.dropWhile (· ≠ ')') with
    | ')' :: rest => some rest
    | _ => none
  | _ => none

/-- `re.sub(r'\s*\([^)]*\)', '', venue)`: remove every (leftmost,
non-overlapping) parenthesized run.  Fuel-driven so the recursion is
structural; the fuel `s.length` always suffices since each removal consumes
at least two characters. -/
def removeParensGo : Nat → List Char → List Char
  | _, [] => []
  | 0, l => l
  | n + 1, c :: r =>
    match parenAt (c :: r) with
    | some rest => removeParensGo n rest
    | none => c :: removeParensGo n r

/-- See `removeParensGo`. -/
def removeParens (s : List Char) : List Char := removeParensGo s.length s

/-- Lines 120-125: strip the group, remove parenthesized runs, strip again,
and require length > 2. -/
def venueCheck (cand : List Char) : Option (List Char) :=
  let v := stripWs (removeParens (stripWs cand))
  if 2 < v.length then some v else none

/-- `extract_venue_from_title` (lines 100-127): six ordered case-insensitive
patterns; the first whose cleaned group is longer than two characters wins. -/
def extract_venue_from_title (t : List Char) : Option (List Char) :=
  ((searchPrev (fun _ => venue1At) none t).bind venueCheck).orElse fun _ =>
    ((searchPrev (fun _ => venue2At) none t).bind venueCheck).orElse fun _ =>
      ((searchPrev venue3At none t).bind venueCheck).orElse fun _ =>
        ((searchPrev venue4At none t).bind venueCheck).orElse fun _ =>
          ((searchPrev (fun _ => venue5At) none t).bind venueCheck).orElse fun _ =>
            (searchPrev (fun _ => venue6At) none t).bind venueCheck

/-!
The issue detector (`analyze_items`, lines 212-281), per record.
-/

/-- The closed set of issue tags. -/
inductive Issue
  | missing_band
  | missing_venue
  | missing_date
  | bad_date_format
deriving DecidableEq, Repr

/-- The `suggestions` mapping of one issue record. -/
structure Suggestions where
  band : Option (List Char)
  venue : Option (List Char)
  date : Option (List Char)
deriving DecidableEq, Repr

/-- The `current` field snapshot stored in one issue record. -/
structure CurrentFields where
  band : Option (List Char)
  venue : Option (List Char)
  date : Option (List Char)
deriving DecidableEq, Repr

/-- One entry of `metadata_issues.json`. -/
structure IssueRecord where
  identifier : List Char
  title : List Char
  current : CurrentFields
  issues : List Issue
  suggestions : Suggestions
deriving DecidableEq, Repr

/-- One fetched record, with the fields `analyze_items` reads.  An absent
(or Python-falsy) field is `none`. -/
structure Item where
  identifier : List Char
  title : List Char
  band : Option (List Char)
  venue : Option (List Char)
  date : Option (List Char)
  publicdate : Option (List Char)
deriving DecidableEq, Repr

/-- Python `endswith`, here only needed against a fixed pattern. -/
def endsWith (s pat : List Char) : Bool := pat.isSuffixOf s

/-- The date branch of `analyze_items` for a present effective date (lines
252-266); `some v` means `bad_date_format` is flagged with suggestion `v`.
The `elif` of line 263 belongs to the outer `if` of line 259, so when the
rule-1 guard holds but the dates are equal nothing at all is flagged. -/
def analyzeDateIssue (dtc title : List Char) : Option (List Char) :=
  let std := standardize_date dtc
  match extract_date_from_title title with
  | some td =>
    if endsWith std jan1 && !endsWith td jan1 then
      if std ≠ td then some td else none
    else if std ≠ dtc then some std else none
  | none => if std ≠ dtc then some std else none

/-- The whole date check (lines 243-266): `date or publicdate`; when absent,
a title-extracted date is a `missing_date` suggestion; when present, defer
to `analyzeDateIssue`. -/
def analyzeDateBranch (dtc : Option (List Char)) (title : List Char) :
    Option (Issue × List Char) :=
  match dtc with
  | none =>
    match extract_date_from_title title with
    | some d => some (Issue.missing_date, d)
    | none => none
  | some d => (analyzeDateIssue d title).map fun v => (Issue.bad_date_format, v)

/-- `analyze_items` restricted to one record (lines 216-281): flag
`missing_band` / `missing_venue` when the field is absent and the title
yields a value, run the date check, and emit a record exactly when at least
one issue was flagged. -/
def analyze_item (it : Item) : Option IssueRecord :=
  let bandSugg := match it.band with
    | none => extract_band_from_title it.title
    | some _ => none
  let venueSugg := match it.venue with
    | none => extract_venue_from_title it.title
    | some _ => none
  let dtc := it.date.orElse fun _ => it.publicdate
  let dateRes := analyzeDateBranch dtc it.title
  let issues :=
    (match bandSugg with
      | some _ => [Issue.missing_band]
      | none => []) ++
    (match venueSugg with
      | some _ => [Issue.missing_venue]
      | none => []) ++
    (match dateRes with
      | some p => [p.1]
      | none => [])
  if issues = [] then none
  else
    some
      { identifier := it.identifier
        title := it.title
        current := { band := it.band, venue := it.venue, date := dtc }
        issues := issues
        suggestions := { band := bandSugg, venue := venueSugg, date := dateRes.map (·.2) } }

/-!
Review ordering (`sort_issues_by_type`, lines 304-333).
-/

/-- Python `set(s) == {i}` for a list of tags. -/
def setEqSingleton (s : List Issue) (i : Issue) : Bool := s.contains i && s.all (· == i)

/-- The priority tier of `get_sort_key` (lines 306-331): the seven ordered
conditions, first match wins. -/
def tier (s : List Issue) : Nat :=
  if setEqSingleton s .bad_date_format then 1
  else if s.contains .missing_band && s.contains .missing_venue then 2
  else if s.contains .missing_band && s.contains .bad_date_format then 3
  else if s.contains .missing_venue && s.contains .bad_date_format then 4
  else if setEqSingleton s .missing_band then 5
  else if setEqSingleton s .missing_venue then 6
  else 7

/-- Python string comparison: lexicographic by code point, with a proper
prefix comparing smaller. -/
def idLe : List Char → List Char → Bool
  | [], _ => true
  | _ :: _, [] => false
  | a :: s, b :: t => if a = b then idLe s t else decide (a < b)

/-- The sort key order of `sort_issues_by_type`: Python tuple comparison on
`(tier, identifier)`. -/
def keyLe (x y : IssueRecord) : Prop :=
  (tier x.issues < tier y.issues ∨
    (tier x.issues = tier y.issues ∧ idLe x.identifier y.identifier = true))

instance : DecidableRel keyLe := fun x y => by
  unfold keyLe
  infer_instance

/-- `self.issues.sort(key=get_sort_key)` (line 333): a comparison sort under
`keyLe`.  For collections with pairwise-distinct identifiers the keys are
pairwise distinct, so every correct sort (Python's Timsort included)
produces this same unique ordering. -/
def sort_issues_by_type (l : List IssueRecord) : List IssueRecord :=
  l.insertionSort keyLe

end Analyze

namespace Audit

/-!
Embedding of `audit_date_mismatches.py`.
-/

open Analyze (takeDigitsN fixedAt isoAt searchBy)

/-- One alternative of `^(\d{1,2})\.(\d{1,2})\.(\d{2})_` with fixed widths. -/
def idFixedAt (am ad : Nat) (s : List Char) :
    Option (List Char × List Char × List Char) :=
  match takeDigitsN am s with
  | some (m, '.' :: r1) =>
    match takeDigitsN ad r1 with
    | some (d, '.' :: r2) =>
      match takeDigitsN 2 r2 with
      | some (y, '_' :: _) => some (m, d, y)
      | _ => none
    | _ => none
  | _ => none

/-- Identifier pattern 3: `^(\d{4}-\d{2}-\d{2})-`. -/
def idYMDAt : List Char → Option (List Char)
  | y1 :: y2 :: y3 :: y4 :: '-' :: m1 :: m2 :: '-' :: d1 :: d2 :: '-' :: _ =>
    if isDigitC y1 ∧ isDigitC y2 ∧ isDigitC y3 ∧ isDigitC y4 ∧ isDigitC m1 ∧ isDigitC m2 ∧
        isDigitC d1 ∧ isDigitC d2 then
      some [y1, y2, y3, y4, '-', m1, m2, '-', d1, d2]
    else none
  | _ => none

/-- Lines 55-64: a three-group match renders as
`year-month.zfill(2)-day.zfill(2)` with a two-digit year prefixed by "20". -/
def render3 (m d y : List Char) : List Char :=
  (if y.length = 2 then '2' :: '0' :: y else y) ++ '-' :: zfill2 m ++ '-' :: zfill2 d

/-- `parse_date_from_identifier` (lines 26-65): three anchored patterns in
order — `MM.DD.YY_`, `M{1,2}.D{1,2}.YY_` (greedy widths first), and
`YYYY-MM-DD-`. -/
def parse_date_from_identifier (s : List Char) : Option (List Char) :=
  ((idFixedAt 2 2 s).map fun g => render3 g.1 g.2.1 g.2.2).orElse fun _ =>
    (((idFixedAt 2 2 s).orElse fun _ =>
        (idFixedAt 2 1 s).orElse fun _ =>
          (idFixedAt 1 2 s).orElse fun _ => idFixedAt 1 1 s).map fun g =>
      render3 g.1 g.2.1 g.2.2).orElse fun _ =>
      idYMDAt s

/-- `on (\d{2})\.(\d{2})\.(\d{2})` at the current position (pattern 1 of
`parse_date_from_title`, case sensitive — no `re.I` in this script). -/
def onDotAt : List Char → Option (List Char × List Char × List Char)
  | 'o' :: 'n' :: ' ' :: r => fixedAt '.' 2 2 2 r
  | _ => none

/-- `on (\d{1,2})/(\d{1,2})/(\d{2,4})` at the current position; the greedy
alternatives are explored widths-first (first group, then second, then the
year's 4/3/2). -/
def onSlashAt : List Char → Option (List Char × List Char × List Char)
  | 'o' :: 'n' :: ' ' :: r =>
    (fixedAt '/' 2 2 4 r).orElse fun _ =>
      (fixedAt '/' 2 2 3 r).orElse fun _ =>
        (fixedAt '/' 2 2 2 r).orElse fun _ =>
          (fixedAt '/' 2 1 4 r).orElse fun _ =>
            (fixedAt '/' 2 1 3 r).orElse fun _ =>
              (fixedAt '/' 2 1 2 r).orElse fun _ =>
                (fixedAt '/' 1 2 4 r).orElse fun _ =>
                  (fixedAt '/' 1 2 3 r).orElse fun _ =>
                    (fixedAt '/' 1 2 2 r).orElse fun _ =>
                      (fixedAt '/' 1 1 4 r).orElse fun _ =>
                        (fixedAt '/' 1 1 3 r).orElse fun _ => fixedAt '/' 1 1 2 r
  | _ => none

/-- `on (\d{2})-(\d{2})-(\d{2})` at the current position (pattern 4). -/
def onDashAt : List Char → Option (List Char × List Char × List Char)
  | 'o' :: 'n' :: ' ' :: r => fixedAt '-' 2 2 2 r
  | _ => none

/-- `parse_date_from_title` of the audit script (lines 67-106): four ordered
searched patterns; three-group matches render via `render3`, the bare
`YYYY-MM-DD` group is returned as matched. -/
def parse_date_from_title (t : List Char) : Option (List Char) :=
  ((searchBy onDotAt t).map fun g => render3 g.1 g.2.1 g.2.2).orElse fun _ =>
    ((searchBy onSlashAt t).map fun g => render3 g.1 g.2.1 g.2.2).orElse fun _ =>
      ((searchBy isoAt t).map fun g => g.1 ++ '-' :: g.2.1 ++ '-' :: g.2.2).orElse fun _ =>
        (searchBy onDashAt t).map fun g => render3 g.1 g.2.1 g.2.2

/-- One input record of the audit (identifier and title of an issue entry). -/
structure AuditItem where
  identifier : List Char
  title : List Char
deriving DecidableEq, Repr

/-- One emitted mismatch (lines 193-199). -/
structure Mismatch where
  identifier : List Char
  title : List Char
  identifier_date : List Char
  title_date : List Char
  current_archive_date : List Char
deriving DecidableEq, Repr

/-- Line 190: the displayed stored date.  The external fetch capability is a
parameter: `none` models a fetch error, `some md` a successful fetch whose
`date` field is `md`. -/
def storedDate (fetch : List Char → Option (Option (List Char))) (id : List Char) :
    List Char :=
  match fetch id with
  | some (some d) => d
  | some none => "Not set".data
  | none => "Error fetching".data

/-- Lines 183-200 for one item: emit a mismatch exactly when both dates
parse and differ. -/
def checkItem (fetch : List Char → Option (Option (List Char))) (it : AuditItem) :
    Option Mismatch :=
  match parse_date_from_identifier it.identifier, parse_date_from_title it.title with
  | some idd, some td =>
    if idd ≠ td then
      some { identifier := it.identifier
             title := it.title
             identifier_date := idd
             title_date := td
             current_archive_date := storedDate fetch it.identifier }
    else none
  | _, _ => none

/-- The audit loop (lines 178-214): mismatches accumulate in input order. -/
def audit_date_mismatches (fetch : List Char → Option (Option (List Char))) :
    List AuditItem → List Mismatch
  | [] => []
  | it :: rest =>
    match checkItem fetch it with
    | some mm => mm :: audit_date_mismatches fetch rest
    | none => audit_date_mismatches fetch rest

end Audit

namespace FixSugg

/-!
Embedding of `fix_date_suggestions.py`.
-/

open Analyze (takeDigitsN fixedAt isoAt searchBy IssueRecord Suggestions)
open Audit (render3)

/-- `(\d{1,2})/(\d{1,2})/(\d{2,4})` at the current position (no `on `
prefix, unlike the audit script). -/
def slashAt (s : List Char) : Option (List Char × List Char × List Char) :=
  (fixedAt '/' 2 2 4 s).orElse fun _ =>
    (fixedAt '/' 2 2 3 s).orElse fun _ =>
      (fixedAt '/' 2 2 2 s).orElse fun _ =>
        (fixedAt '/' 2 1 4 s).orElse fun _ =>
          (fixedAt '/' 2 1 3 s).orElse fun _ =>
            (fixedAt '/' 2 1 2 s).orElse fun _ =>
              (fixedAt '/' 1 2 4 s).orElse fun _ =>
                (fixedAt '/' 1 2 3 s).orElse fun _ =>
                  (fixedAt '/' 1 2 2 s).orElse fun _ =>
                    (fixedAt '/' 1 1 4 s).orElse fun _ =>
                      (fixedAt '/' 1 1 3 s).orElse fun _ => fixedAt '/' 1 1 2 s

/-- `parse_date_from_title` of the fix script (lines 25-64): ordered
searched patterns `(\d{2})\.(\d{2})\.(\d{2})` (month-first),
`(\d{1,2})/(\d{1,2})/(\d{2,4})`, `(\d{4}-\d{2}-\d{2})`. -/
def parse_date_from_title (t : List Char) : Option (List Char) :=
  ((searchBy (fixedAt '.' 2 2 2) t).map fun g => render3 g.1 g.2.1 g.2.2).orElse fun _ =>
    ((searchBy slashAt t).map fun g => render3 g.1 g.2.1 g.2.2).orElse fun _ =>
      (searchBy isoAt t).map fun g => g.1 ++ '-' :: g.2.1 ++ '-' :: g.2.2

/-- The per-item body of `main` (lines 94-110): items carrying a date
suggestion get it overwritten when the title re-parse yields a different
value; the boolean reports whether a fix was counted. -/
def fixOne (it : IssueRecord) : IssueRecord × Bool :=
  match it.suggestions.date with
  | some cur =>
    match parse_date_from_title it.title with
    | some td =>
      if td ≠ cur then
        ({ it with suggestions := { it.suggestions with date := some td } }, true)
      else (it, false)
    | none => (it, false)
  | none => (it, false)

/-- The whole pass of `main`: every record processed in order, fixes
counted. -/
def fix_main : List IssueRecord → List IssueRecord × Nat
  | [] => ([], 0)
  | it :: rest =>
    let p := fixOne it
    let q := fix_main rest
    (p.1 :: q.1, (if p.2 then 1 else 0) + q.2)

end FixSugg

namespace Apply

/-!
Embedding of `apply_metadata_fixes.py` (`apply_all_fixes`, lines 54-134).
The external update capability is a parameter returning `Except`: `.error`
models a raised exception, `.ok b` the boolean result of
`update_archive_metadata_ia`.
-/

open Analyze (IssueRecord Suggestions)

/-- The per-item outcome observable in the loop's counters. -/
inductive Outcome
  | success
  | failure
  | skipped
deriving DecidableEq, Repr

/-- Lines 91-106: the update payload built from the suggestions, in field
order band, venue, date. -/
def buildUpdates (s : Suggestions) : List (List Char × List Char) :=
  (match s.band with
    | some b => [("band".data, b)]
    | none => []) ++
  (match s.venue with
    | some v => [("venue".data, v)]
    | none => []) ++
  (match s.date with
    | some d => [("date".data, d)]
    | none => [])

/-- Lines 88-124 for one item: an empty payload is skipped; otherwise the
update capability is invoked, a raised exception or a `False` result counts
as a failure, `True` as a success. -/
def processOne (upd : List Char → List (List Char × List Char) → Except (List Char) Bool)
    (it : IssueRecord) : Outcome :=
  let mu := buildUpdates it.suggestions
  if mu.isEmpty then .skipped
  else
    match upd it.identifier mu with
    | .ok true => .success
    | .ok false => .failure
    | .error _ => .failure

/-- The batch loop (lines 80-128): every item is processed in order and the
success/error counters are accumulated; the final pair is the reported
summary (lines 131-134). -/
def apply_all_fixes
    (upd : List Char → List (List Char × List Char) → Except (List Char) Bool) :
    List IssueRecord → Nat × Nat
  | [] => (0, 0)
  | it :: rest =>
    let q := apply_all_fixes upd rest
    match processOne upd it with
    | .success => (q.1 + 1, q.2)
    | .failure => (q.1, q.2 + 1)
    | .skipped => q

end Apply

/-!
Spec-side definitions (each follows the wording of a claim, for comparison
with the code-side functions above).
-/

namespace SpecSide

open Analyze

/-- The Issue Detector's date rules as the specification states them
(claim C2): rule 1 with its four conjoined conditions, otherwise rule 2,
otherwise no issue.  `some v` means `bad_date_format` is flagged with
suggestion `v`. -/
def dateIssueSpec (dtc title : List Char) : Option (List Char) :=
  let std := standardize_date dtc
  match extract_date_from_title title with
  | some td =>
    if endsWith std jan1 = true ∧ endsWith td jan1 = false ∧ std ≠ td then some td
    else if std ≠ dtc then some std
    else none
  | none => if std ≠ dtc then some std else none

/-- The review-priority tiers as the amended claim C6 states them, with the
issue list read as a set. -/
def tierSpec (s : List Issue) : Nat :=
  if Issue.bad_date_format ∈ s ∧ ∀ x ∈ s, x = Issue.bad_date_format then 1
  else if Issue.missing_band ∈ s ∧ Issue.missing_venue ∈ s then 2
  else if Issue.missing_band ∈ s ∧ Issue.bad_date_format ∈ s then 3
  else if Issue.missing_venue ∈ s ∧ Issue.bad_date_format ∈ s then 4
  else if Issue.missing_band ∈ s ∧ ∀ x ∈ s, x = Issue.missing_band then 5
  else if Issue.missing_venue ∈ s ∧ ∀ x ∈ s, x = Issue.missing_venue then 6
  else 7

end SpecSide

/-!
Helper lemmas.
-/

theorem foldl_digits (l : List Char) (acc : Nat) :
    l.foldl (fun a c => a * 10 + charVal c) acc = acc * 10 ^ l.length + digitsToNat l := by
  induction l generalizing acc with
  | nil => simp [digitsToNat]
  | cons c r ih =>
    show List.foldl _ (acc * 10 + charVal c) r = _
    rw [ih (acc * 10 + charVal c)]
    have h0 : digitsToNat (c :: r) = charVal c * 10 ^ r.length + digitsToNat r := by
      show List.foldl _ (0 * 10 + charVal c) r = _
      rw [ih (0 * 10 + charVal c)]
      ring
    rw [h0]
    simp [List.length_cons, pow_succ]
    ring

theorem charVal_le_nine {c : Char} (h : isDigitC c = true) : charVal c ≤ 9 := by
  unfold isDigitC at h
  rw [Bool.and_eq_true, decide_eq_true_eq, decide_eq_true_eq] at h
  unfold charVal
  omega

theorem digitsToNat_two_le {c1 c2 : Char} (h1 : isDigitC c1 = true)
    (h2 : isDigitC c2 = true) : digitsToNat [c1, c2] ≤ 99 := by
  have v1 := charVal_le_nine h1
  have v2 := charVal_le_nine h2
  show (0 * 10 + charVal c1) * 10 + charVal c2 ≤ 99
  omega

theorem charVal_digitChar {k : Nat} (h : k ≤ 9) : charVal (digitChar k) = k := by
  interval_cases k <;> decide

/-!
Claim C2.
-/

theorem analyzeDateIssue_eq_spec (dtc title : List Char) :
    Analyze.analyzeDateIssue dtc title = SpecSide.dateIssueSpec dtc title := by
  unfold Analyze.analyzeDateIssue SpecSide.dateIssueSpec
  cases hE : Analyze.extract_date_from_title title with
  | none => rfl
  | some td =>
    simp only
    by_cases ha : Analyze.endsWith (Analyze.standardize_date dtc) jan1 = true
    · by_cases hb : Analyze.endsWith td jan1 = false
      · by_cases hc : Analyze.standardize_date dtc = td
        · -- impossible: equal strings, but one ends with "-01-01" and the other does not
          rw [hc] at ha
          rw [ha] at hb
          cases hb
        · simp [ha, hb, hc]
      · rw [Bool.not_eq_false] at hb
        simp [ha, hb]
    · rw [Bool.not_eq_true] at ha
      simp [ha]

/-- Claim C2: with an effective stored date present, the Issue Detector's
date decision is exactly the spec's ordered rules — rule 1 (title date
exists, canonicalized effective ends in "-01-01", title date does not, and
they differ → flag `bad_date_format`, suggest the title date), else rule 2
(canonicalized differs from raw → flag `bad_date_format`, suggest the
canonicalized value), else no date issue; and the "2016" / "2016-02-28"
scenario flags `bad_date_format` with suggestion "2016-02-28". -/
theorem claim_C2 :
    (∀ dtc title : List Char,
        Analyze.analyzeDateBranch (some dtc) title =
          (SpecSide.dateIssueSpec dtc title).map fun v => (Analyze.Issue.bad_date_format, v)) ∧
      Analyze.analyzeDateBranch (some "2016".data) "Thou @ The Che Cafe on 2016-02-28".data =
        some (Analyze.Issue.bad_date_format, "2016-02-28".data) := by
  constructor
  · intro dtc title
    show Option.map (fun v => (Analyze.Issue.bad_date_format, v))
        (Analyze.analyzeDateIssue dtc title) = _
    rw [analyzeDateIssue_eq_spec]
  · decide

/-!
Claim C5.
-/

/-- Claim C5: the "Thou @ The Che Cafe on 01.12.12" scenario — with no
stored band, venue or date, the Issue Detector flags `missing_band`,
`missing_venue` and `missing_date` with exactly the suggestions performer
"Thou" (from the first performer pattern `^([^@]+?)\s*@`, whose trimmed
group is longer than two characters and not in the stoplist), venue
"The Che Cafe", and extracted date "2012-01-12". -/
theorem claim_C5 :
    Analyze.analyze_item
        { identifier := "01.20.12_Thou".data
          title := "Thou @ The Che Cafe on 01.12.12".data
          band := none
          venue := none
          date := none
          publicdate := none } =
      some
        { identifier := "01.20.12_Thou".data
          title := "Thou @ The Che Cafe on 01.12.12".data
          current := { band := none, venue := none, date := none }
          issues := [.missing_band, .missing_venue, .missing_date]
          suggestions :=
            { band := some "Thou".data
              venue := some "The Che Cafe".data
              date := some "2012-01-12".data } } := by
  decide

/-!
Claim C8.
-/

/-- Claim C8: the Suggestion Corrector re-extracts a date from the title
with its simplified ordered patterns (dotted DD.DD.DD month-first, slash
M/D/Y{2,4}, then YYYY-MM-DD) and overwrites the stored date suggestion
exactly when the freshly extracted value exists and differs from it; all
other fields are unchanged, and records without a date suggestion are
untouched. -/
theorem claim_C8 :
    (∀ l, (FixSugg.fix_main l).1 = l.map fun it => (FixSugg.fixOne it).1) ∧
      (∀ it : Analyze.IssueRecord,
          (FixSugg.fixOne it).1.identifier = it.identifier ∧
            (FixSugg.fixOne it).1.title = it.title ∧
              (FixSugg.fixOne it).1.current = it.current ∧
                (FixSugg.fixOne it).1.issues = it.issues ∧
                  (FixSugg.fixOne it).1.suggestions.band = it.suggestions.band ∧
                    (FixSugg.fixOne it).1.suggestions.venue = it.suggestions.venue) ∧
        (∀ it : Analyze.IssueRecord, it.suggestions.date = none → (FixSugg.fixOne it).1 = it) ∧
          (∀ (it : Analyze.IssueRecord) (cur td : List Char),
              it.suggestions.date = some cur →
                FixSugg.parse_date_from_title it.title = some td →
                  td ≠ cur → (FixSugg.fixOne it).1.suggestions.date = some td) ∧
            (∀ (it : Analyze.IssueRecord) (cur : List Char),
                it.suggestions.date = some cur →
                  (FixSugg.parse_date_from_title it.title = none ∨
                      FixSugg.parse_date_from_title it.title = some cur) →
                    (FixSugg.fixOne it).1 = it) := by
  refine ⟨?_, ?_, ?_, ?_, ?_⟩
  · intro l
    induction l with
    | nil => rfl
    | cons it rest ih => simp [FixSugg.fix_main, ih]
  · intro it
    unfold FixSugg.fixOne
    cases hd : it.suggestions.date with
    | none => simp
    | some cur =>
      cases hp : FixSugg.parse_date_from_title it.title with
      | none => simp
      | some td =>
        by_cases h : td ≠ cur <;> simp [h]
  · intro it hd
    unfold FixSugg.fixOne
    rw [hd]
  · intro it cur td hd hp hne
    unfold FixSugg.fixOne
    rw [hd, hp]
    simp [hne]
  · intro it cur hd hor
    unfold FixSugg.fixOne
    rw [hd]
    rcases hor with h | h
    · rw [h]
    · rw [h]
      simp

/-- Witness for claim C8 at concrete inputs: a record whose title re-parses
to "2012-01-12" while its stored date suggestion is "2012-01-01" gets the
suggestion overwritten, and a record with no date suggestion is untouched. -/
theorem claim_C8_witness :
    (FixSugg.fixOne
          { identifier := "id1".data
            title := "Thou @ The Che Cafe on 01.12.12".data
            current := { band := none, venue := none, date := some "2012-01-01".data }
            issues := [.bad_date_format]
            suggestions :=
              { band := none, venue := none, date := some "2012-01-01".data } }).1.suggestions.date =
        some "2012-01-12".data ∧
      (FixSugg.fixOne
            { identifier := "id2".data
              title := "whatever".data
              current := { band := none, venue := none, date := none }
              issues := [.missing_band]
              suggestions := { band := some "B".data, venue := none, date := none } }).1 =
        { identifier := "id2".data
          title := "whatever".data
          current := { band := none, venue := none, date := none }
          issues := [.missing_band]
          suggestions := { band := some "B".data, venue := none, date := none } } := by
  constructor
  · exact claim_C8.2.2.2.1 _ "2012-01-01".data "2012-01-12".data (by rfl) (by decide) (by decide)
  · exact claim_C8.2.2.1 _ (by rfl)

/-!
Claim C9.
-/

/-- Claim C9: per-item failure isolation in the batch application step.  The
loop's final counters are exactly the per-item outcome counts over the whole
sequence (so every item is processed no matter what earlier updates did),
counting is additive across concatenation (a failing prefix never aborts the
suffix), and an item is counted as failed exactly when its nonempty update
either returns `False` or raises. -/
theorem claim_C9 :
    (∀ upd l,
        Apply.apply_all_fixes upd l =
          ((l.map (Apply.processOne upd)).count .success,
            (l.map (Apply.processOne upd)).count .failure)) ∧
      (∀ upd l1 l2,
          Apply.apply_all_fixes upd (l1 ++ l2) =
            ((Apply.apply_all_fixes upd l1).1 + (Apply.apply_all_fixes upd l2).1,
              (Apply.apply_all_fixes upd l1).2 + (Apply.apply_all_fixes upd l2).2)) ∧
        (∀ upd it,
            Apply.processOne upd it = .failure ↔
              Apply.buildUpdates it.suggestions ≠ [] ∧
                (upd it.identifier (Apply.buildUpdates it.suggestions) = .ok false ∨
                  ∃ e, upd it.identifier (Apply.buildUpdates it.suggestions) = .error e)) := by
  have hcount : ∀ upd l,
      Apply.apply_all_fixes upd l =
        ((l.map (Apply.processOne upd)).count .success,
          (l.map (Apply.processOne upd)).count .failure) := by
    intro upd l
    induction l with
    | nil => rfl
    | cons it rest ih =>
      show (match Apply.processOne upd it with
        | .success => ((Apply.apply_all_fixes upd rest).1 + 1, (Apply.apply_all_fixes upd rest).2)
        | .failure => ((Apply.apply_all_fixes upd rest).1, (Apply.apply_all_fixes upd rest).2 + 1)
        | .skipped => Apply.apply_all_fixes upd rest) = _
      rw [ih]
      cases h : Apply.processOne upd it <;>
        simp [List.count_cons, h]
  refine ⟨hcount, ?_, ?_⟩
  · intro upd l1 l2
    rw [hcount, hcount, hcount, List.map_append, List.count_append, List.count_append]
  · intro upd it
    simp only [Apply.processOne]
    by_cases he : (Apply.buildUpdates it.suggestions).isEmpty = true
    · rw [if_pos he]
      have hnil : Apply.buildUpdates it.suggestions = [] := List.isEmpty_iff.mp he
      simp [hnil]
    · rw [if_neg he]
      have hne : Apply.buildUpdates it.suggestions ≠ [] := fun h => he (by simp [h])
      cases hu : upd it.identifier (Apply.buildUpdates it.suggestions) with
      | error e => simp [hne]
      | ok b => cases b <;> simp [hne]

/-!
Claim C7.
-/

/-- Claim C7 (amended): the Cross-Source Date Auditor emits a Mismatch for a
record exactly when the identifier-derived and title-derived dates both
exist and differ, and the Mismatch carries both values plus the currently
stored date; the audit output is the per-record mismatches in order.  The
scenario holds for identifier "01.20.12_Thou" with a title whose date-text
is preceded by "on " — e.g. "Thou @ The Che Cafe on 01.12.12" — (not, as
claimed, for every title merely containing "01.12.12": the auditor's dotted
pattern requires the literal prefix "on "). -/
theorem claim_C7 :
    (∀ (fetch : List Char → Option (Option (List Char))) (it : Audit.AuditItem)
        (mm : Audit.Mismatch),
        Audit.checkItem fetch it = some mm ↔
          ∃ d1 d2,
            Audit.parse_date_from_identifier it.identifier = some d1 ∧
              Audit.parse_date_from_title it.title = some d2 ∧
                d1 ≠ d2 ∧
                  mm = { identifier := it.identifier
                         title := it.title
                         identifier_date := d1
                         title_date := d2
                         current_archive_date := Audit.storedDate fetch it.identifier }) ∧
      (∀ (fetch : List Char → Option (Option (List Char))) (l : List Audit.AuditItem)
          (mm : Audit.Mismatch),
          mm ∈ Audit.audit_date_mismatches fetch l ↔
            ∃ it ∈ l, Audit.checkItem fetch it = some mm) ∧
        (∀ fetch : List Char → Option (Option (List Char)),
            Audit.checkItem fetch
                { identifier := "01.20.12_Thou".data
                  title := "Thou @ The Che Cafe on 01.12.12".data } =
              some
                { identifier := "01.20.12_Thou".data
                  title := "Thou @ The Che Cafe on 01.12.12".data
                  identifier_date := "2012-01-20".data
                  title_date := "2012-01-12".data
                  current_archive_date := Audit.storedDate fetch "01.20.12_Thou".data }) := by
  refine ⟨?_, ?_, ?_⟩
  · intro fetch it mm
    unfold Audit.checkItem
    cases h1 : Audit.parse_date_from_identifier it.identifier with
    | none =>
      simp only
      constructor
      · intro h
        cases h
      · rintro ⟨d1, d2, hd1, _⟩
        cases hd1
    | some idd =>
      cases h2 : Audit.parse_date_from_title it.title with
      | none =>
        simp only
        constructor
        · intro h
          cases h
        · rintro ⟨d1, d2, _, hd2, _⟩
          cases hd2
      | some td =>
        simp only
        by_cases hne : idd ≠ td
        · rw [if_pos hne]
          constructor
          · intro h
            exact ⟨idd, td, rfl, rfl, hne, (Option.some_inj.mp h).symm⟩
          · rintro ⟨d1, d2, hd1, hd2, hne2, hmm⟩
            cases hd1
            cases hd2
            rw [hmm]
        · rw [if_neg hne]
          constructor
          · intro h
            cases h
          · rintro ⟨d1, d2, hd1, hd2, hne2, _⟩
            cases hd1
            cases hd2
            exact absurd hne2 hne
  · intro fetch l mm
    induction l with
    | nil => simp [Audit.audit_date_mismatches]
    | cons it rest ih =>
      show mm ∈ (match Audit.checkItem fetch it with
        | some m => m :: Audit.audit_date_mismatches fetch rest
        | none => Audit.audit_date_mismatches fetch rest) ↔ _
      cases h : Audit.checkItem fetch it with
      | some m =>
        constructor
        · intro hm
          rcases List.mem_cons.mp hm with hmm | hmem
          · exact ⟨it, List.mem_cons_self it rest, by rw [h, hmm]⟩
          · obtain ⟨it2, hit2, hc2⟩ := ih.mp hmem
            exact ⟨it2, List.mem_cons_of_mem it hit2, hc2⟩
        · rintro ⟨it2, hit2, hc2⟩
          rcases List.mem_cons.mp hit2 with heq | hmem
          · subst heq
            exact List.mem_cons.mpr (Or.inl (Option.some_inj.mp (h.symm.trans hc2)).symm)
          · exact List.mem_cons.mpr (Or.inr (ih.mpr ⟨it2, hmem, hc2⟩))
      | none =>
        constructor
        · intro hmem
          obtain ⟨it2, hit2, hc2⟩ := ih.mp hmem
          exact ⟨it2, List.mem_cons_of_mem it hit2, hc2⟩
        · rintro ⟨it2, hit2, hc2⟩
          rcases List.mem_cons.mp hit2 with heq | hmem
          · subst heq
            cases h.symm.trans hc2
          · exact ih.mpr ⟨it2, hmem, hc2⟩
  · intro fetch
    unfold Audit.checkItem
    have h1 : Audit.parse_date_from_identifier "01.20.12_Thou".data =
        some "2012-01-20".data := by decide
    have h2 : Audit.parse_date_from_title "Thou @ The Che Cafe on 01.12.12".data =
        some "2012-01-12".data := by decide
    rw [h1, h2]
    rfl

/-- Counterexample to claim C7 as stated: the title "Thou 01.12.12" contains
"01.12.12", yet the auditor's title scan finds no date (its dotted pattern
requires "on " before the digits), so no Mismatch is emitted for identifier
"01.20.12_Thou" although the identifier parses to "2012-01-20". -/
theorem claim_C7_counterexample :
    "Thou 01.12.12".data = "Thou ".data ++ "01.12.12".data ++ ([] : List Char) ∧
      Audit.parse_date_from_identifier "01.20.12_Thou".data = some "2012-01-20".data ∧
        Audit.parse_date_from_title "Thou 01.12.12".data = none ∧
          Audit.checkItem (fun _ => none)
              { identifier := "01.20.12_Thou".data, title := "Thou 01.12.12".data } =
            none := by
  refine ⟨by decide, by decide, by decide, ?_⟩
  unfold Audit.checkItem
  have h2 : Audit.parse_date_from_title "Thou 01.12.12".data = none := by decide
  rw [h2]
  have h1 : Audit.parse_date_from_identifier "01.20.12_Thou".data =
      some "2012-01-20".data := by decide
  rw [h1]

/-!
Claim C6.
-/

theorem idLe_total : ∀ s t : List Char, Analyze.idLe s t = true ∨ Analyze.idLe t s = true
  | [], _ => Or.inl rfl
  | _ :: _, [] => Or.inr rfl
  | a :: s, b :: t => by
    by_cases hab : a = b
    · subst hab
      simp only [Analyze.idLe, if_pos rfl]
      exact idLe_total s t
    · rcases lt_or_gt_of_ne hab with h | h
      · exact Or.inl (by simp [Analyze.idLe, hab, h])
      · exact Or.inr (by simp [Analyze.idLe, Ne.symm hab, h])

theorem idLe_trans :
    ∀ s t u : List Char,
      Analyze.idLe s t = true → Analyze.idLe t u = true → Analyze.idLe s u = true
  | [], _, _, _, _ => rfl
  | _ :: _, [], _, h, _ => by cases h
  | _ :: _, _ :: _, [], _, h => by cases h
  | a :: s, b :: t, c :: u, h1, h2 => by
    by_cases hab : a = b <;> by_cases hbc : b = c
    · subst hab
      subst hbc
      simp only [Analyze.idLe, if_pos rfl] at h1 h2 ⊢
      exact idLe_trans s t u h1 h2
    · subst hab
      simp only [Analyze.idLe, if_pos rfl] at h2 ⊢
      simp only [if_neg hbc, decide_eq_true_eq] at h2
      simp [hbc, h2]
    · subst hbc
      simp only [Analyze.idLe] at h1 ⊢
      simp only [if_neg hab, decide_eq_true_eq] at h1
      simp [hab, h1]
    · simp only [Analyze.idLe, if_neg hab, if_neg hbc, decide_eq_true_eq] at h1 h2
      have hac : a < c := h1.trans h2
      simp [Analyze.idLe, ne_of_lt hac, hac]

theorem keyLe_total (a b : Analyze.IssueRecord) :
    Analyze.keyLe a b ∨ Analyze.keyLe b a := by
  unfold Analyze.keyLe
  rcases Nat.lt_trichotomy (Analyze.tier a.issues) (Analyze.tier b.issues) with h | h | h
  · exact Or.inl (Or.inl h)
  · rcases idLe_total a.identifier b.identifier with hi | hi
    · exact Or.inl (Or.inr ⟨h, hi⟩)
    · exact Or.inr (Or.inr ⟨h.symm, hi⟩)
  · exact Or.inr (Or.inl h)

theorem keyLe_trans (a b c : Analyze.IssueRecord) (hab : Analyze.keyLe a b)
    (hbc : Analyze.keyLe b c) : Analyze.keyLe a c := by
  unfold Analyze.keyLe at hab hbc ⊢
  rcases hab with h1 | ⟨e1, i1⟩ <;> rcases hbc with h2 | ⟨e2, i2⟩
  · exact Or.inl (h1.trans h2)
  · exact Or.inl (by omega)
  · exact Or.inl (by omega)
  · exact Or.inr ⟨e1.trans e2, idLe_trans _ _ _ i1 i2⟩

theorem contains_iff_mem_issue (s : List Analyze.Issue) (i : Analyze.Issue) :
    s.contains i = true ↔ i ∈ s := by
  simp [List.contains_iff_exists_mem_beq]

theorem setEqSingleton_iff (s : List Analyze.Issue) (i : Analyze.Issue) :
    Analyze.setEqSingleton s i = true ↔ (i ∈ s ∧ ∀ x ∈ s, x = i) := by
  simp [Analyze.setEqSingleton, List.all_eq_true]

/-- Claim C6 (amended): the review ordering sorts on `(tier, identifier)`
where the tiers are the seven ordered conditions of the code — with tiers 3
and 4 requiring `bad_date_format` specifically (not any date issue, which
is what the claim said): 1 exactly `{bad_date_format}`, 2 both
`missing_band` and `missing_venue`, 3 `missing_band` with
`bad_date_format`, 4 `missing_venue` with `bad_date_format`, 5 exactly
`{missing_band}`, 6 exactly `{missing_venue}`, 7 everything else.  Sorting
twice yields the same sequence, and for collections with distinct
identifiers, records of equal tier appear in strictly ascending identifier
order. -/
theorem claim_C6 :
    (∀ s, Analyze.tier s = SpecSide.tierSpec s) ∧
      (∀ l, Analyze.sort_issues_by_type (Analyze.sort_issues_by_type l) =
          Analyze.sort_issues_by_type l) ∧
        (∀ l : List Analyze.IssueRecord,
            (l.map Analyze.IssueRecord.identifier).Nodup →
              (Analyze.sort_issues_by_type l).Pairwise fun a b =>
                Analyze.tier a.issues = Analyze.tier b.issues →
                  Analyze.idLe a.identifier b.identifier = true ∧
                    a.identifier ≠ b.identifier) := by
  haveI htot : IsTotal Analyze.IssueRecord Analyze.keyLe := ⟨keyLe_total⟩
  haveI htr : IsTrans Analyze.IssueRecord Analyze.keyLe := ⟨keyLe_trans⟩
  refine ⟨?_, ?_, ?_⟩
  · intro s
    simp only [Analyze.tier, SpecSide.tierSpec, Bool.and_eq_true, contains_iff_mem_issue,
      setEqSingleton_iff]
  · intro l
    exact List.Sorted.insertionSort_eq (List.sorted_insertionSort _ l)
  · intro l h
    have hs : (Analyze.sort_issues_by_type l).Pairwise Analyze.keyLe :=
      List.sorted_insertionSort _ l
    have hperm : List.Perm (Analyze.sort_issues_by_type l) l := List.perm_insertionSort _ l
    have hn : ((Analyze.sort_issues_by_type l).map Analyze.IssueRecord.identifier).Nodup :=
      ((hperm.map _).nodup_iff).mpr h
    have hne : (Analyze.sort_issues_by_type l).Pairwise
        (fun a b => a.identifier ≠ b.identifier) := List.pairwise_map.mp hn
    refine (hs.and hne).imp ?_
    rintro a b ⟨hk, hne'⟩ hteq
    rcases hk with hlt | ⟨_, hle⟩
    · omega
    · exact ⟨hle, hne'⟩

/-- Witness for claim C6 at concrete inputs: two records of equal tier with
distinct identifiers. -/
theorem claim_C6_witness :
    Analyze.tier [Analyze.Issue.bad_date_format] =
        SpecSide.tierSpec [Analyze.Issue.bad_date_format] ∧
      Analyze.sort_issues_by_type
          (Analyze.sort_issues_by_type
            [{ identifier := "b".data
               title := "t1".data
               current := { band := none, venue := none, date := none }
               issues := [Analyze.Issue.bad_date_format]
               suggestions := { band := none, venue := none, date := none } },
             { identifier := "a".data
               title := "t2".data
               current := { band := none, venue := none, date := none }
               issues := [Analyze.Issue.bad_date_format]
               suggestions := { band := none, venue := none, date := none } }]) =
        Analyze.sort_issues_by_type
          [{ identifier := "b".data
             title := "t1".data
             current := { band := none, venue := none, date := none }
             issues := [Analyze.Issue.bad_date_format]
             suggestions := { band := none, venue := none, date := none } },
           { identifier := "a".data
             title := "t2".data
             current := { band := none, venue := none, date := none }
             issues := [Analyze.Issue.bad_date_format]
             suggestions := { band := none, venue := none, date := none } }] ∧
        (Analyze.sort_issues_by_type
            [{ identifier := "b".data
               title := "t1".data
               current := { band := none, venue := none, date := none }
               issues := [Analyze.Issue.bad_date_format]
               suggestions := { band := none, venue := none, date := none } },
             { identifier := "a".data
               title := "t2".data
               current := { band := none, venue := none, date := none }
               issues := [Analyze.Issue.bad_date_format]
               suggestions := { band := none, venue := none, date := none } }]).Pairwise
          fun a b =>
            Analyze.tier a.issues = Analyze.tier b.issues →
              Analyze.idLe a.identifier b.identifier = true ∧
                a.identifier ≠ b.identifier :=
  ⟨claim_C6.1 _, claim_C6.2.1 _, claim_C6.2.2 _ (by decide)⟩

/-- Counterexample to claim C6 as stated: the issue set
`{missing_band, missing_date}` contains `missing_band` and a date issue, so
the claim assigns it tier 3; the code's tier-3 condition tests
`bad_date_format` specifically, so it lands in the catch-all tier 7. -/
theorem claim_C6_counterexample :
    Analyze.tier [Analyze.Issue.missing_band, Analyze.Issue.missing_date] = 7 ∧
      Analyze.tier [Analyze.Issue.missing_band, Analyze.Issue.missing_date] ≠ 3 := by
  decide

/-!
Evaluation lemmas for `standardize_date` on composite slash/dot inputs
(claims C1, C4).
-/

theorem spanDigits_all (a : List Char) (ha : ∀ c ∈ a, isDigitC c = true) :
    spanDigits a = (a, []) := by
  induction a with
  | nil => rfl
  | cons c r ih =>
    have hc : isDigitC c = true := ha c (List.mem_cons_self c r)
    simp [spanDigits, hc, ih fun x hx => ha x (List.mem_cons_of_mem c hx)]

theorem spanDigits_append (a : List Char) (ha : ∀ c ∈ a, isDigitC c = true) (c0 : Char)
    (hc0 : isDigitC c0 = false) (r : List Char) :
    spanDigits (a ++ c0 :: r) = (a, c0 :: r) := by
  induction a with
  | nil => simp [spanDigits, hc0]
  | cons c s ih =>
    have hc : isDigitC c = true := ha c (List.mem_cons_self c s)
    simp [spanDigits, hc, ih fun x hx => ha x (List.mem_cons_of_mem c hx)]

theorem matchSep_comp (sep t : Char) (ht : isDigitC t = false) (ylen : Nat)
    (a b y : List Char) (ha : ∀ c ∈ a, isDigitC c = true) (hb : ∀ c ∈ b, isDigitC c = true)
    (hy : ∀ c ∈ y, isDigitC c = true) (la1 : 1 ≤ a.length) (la2 : a.length ≤ 2)
    (lb1 : 1 ≤ b.length) (lb2 : b.length ≤ 2) :
    Analyze.matchSep sep ylen (a ++ t :: (b ++ t :: y)) =
      if t = sep ∧ y.length = ylen then some (a, b, y) else none := by
  by_cases hts : t = sep
  · subst hts
    by_cases hyl : y.length = ylen
    · simp [Analyze.matchSep, spanDigits_append a ha t ht, spanDigits_append b hb t ht,
        spanDigits_all y hy, la1, la2, lb1, lb2, hyl]
    · simp [Analyze.matchSep, spanDigits_append a ha t ht, spanDigits_append b hb t ht,
        spanDigits_all y hy, la1, la2, lb1, lb2, hyl]
  · simp [Analyze.matchSep, spanDigits_append a ha t ht, la1, la2, hts]

theorem comp_ne_nil {a : List Char} (la1 : 1 ≤ a.length) (t : Char) (r : List Char) :
    a ++ t :: r ≠ [] := by
  cases a with
  | nil => simp at la1
  | cons c s => simp

theorem standardize_slash (a b y : List Char) (ha : ∀ c ∈ a, isDigitC c = true)
    (hb : ∀ c ∈ b, isDigitC c = true) (hy : ∀ c ∈ y, isDigitC c = true)
    (la1 : 1 ≤ a.length) (la2 : a.length ≤ 2) (lb1 : 1 ≤ b.length) (lb2 : b.length ≤ 2)
    (hyl : y.length = 2 ∨ y.length = 4) :
    Analyze.standardize_date (a ++ '/' :: (b ++ '/' :: y)) =
      (if y.length = 2 then '2' :: '0' :: y else y) ++ '-' :: zfill2 a ++ '-' :: zfill2 b := by
  have h2 := matchSep_comp '/' '/' (by decide) 2 a b y ha hb hy la1 la2 lb1 lb2
  have h4 := matchSep_comp '/' '/' (by decide) 4 a b y ha hb hy la1 la2 lb1 lb2
  rcases hyl with hl | hl
  · rw [if_pos hl]
    unfold Analyze.standardize_date
    rw [if_neg (comp_ne_nil la1 '/' (b ++ '/' :: y)), h2,
      if_pos (⟨rfl, hl⟩ : '/' = '/' ∧ y.length = 2)]
  · have hc2 : ¬('/' = '/' ∧ y.length = 2) := fun h => by omega
    have hcy : ¬y.length = 2 := by omega
    rw [if_neg hcy]
    unfold Analyze.standardize_date
    rw [if_neg (comp_ne_nil la1 '/' (b ++ '/' :: y)), h2, if_neg hc2, h4,
      if_pos (⟨rfl, hl⟩ : '/' = '/' ∧ y.length = 4)]

theorem standardize_dot (a b y : List Char) (ha : ∀ c ∈ a, isDigitC c = true)
    (hb : ∀ c ∈ b, isDigitC c = true) (hy : ∀ c ∈ y, isDigitC c = true)
    (la1 : 1 ≤ a.length) (la2 : a.length ≤ 2) (lb1 : 1 ≤ b.length) (lb2 : b.length ≤ 2)
    (hyl : y.length = 2 ∨ y.length = 4) :
    Analyze.standardize_date (a ++ '.' :: (b ++ '.' :: y)) =
      (if y.length = 2 then '2' :: '0' :: y else y) ++ '-' :: zfill2 b ++ '-' :: zfill2 a := by
  have hs2 := matchSep_comp '/' '.' (by decide) 2 a b y ha hb hy la1 la2 lb1 lb2
  have hs4 := matchSep_comp '/' '.' (by decide) 4 a b y ha hb hy la1 la2 lb1 lb2
  have hd2 := matchSep_comp '.' '.' (by decide) 2 a b y ha hb hy la1 la2 lb1 lb2
  have hd4 := matchSep_comp '.' '.' (by decide) 4 a b y ha hb hy la1 la2 lb1 lb2
  have hsn2 : ¬('.' = '/' ∧ y.length = 2) := fun h => by cases h.1
  have hsn4 : ¬('.' = '/' ∧ y.length = 4) := fun h => by cases h.1
  rcases hyl with hl | hl
  · rw [if_pos hl]
    unfold Analyze.standardize_date
    rw [if_neg (comp_ne_nil la1 '.' (b ++ '.' :: y)), hs2, if_neg hsn2, hs4, if_neg hsn4,
      hd2, if_pos (⟨rfl, hl⟩ : '.' = '.' ∧ y.length = 2)]
  · have hc2 : ¬('.' = '.' ∧ y.length = 2) := fun h => by omega
    have hcy : ¬y.length = 2 := by omega
    rw [if_neg hcy]
    unfold Analyze.standardize_date
    rw [if_neg (comp_ne_nil la1 '.' (b ++ '.' :: y)), hs2, if_neg hsn2, hs4, if_neg hsn4,
      hd2, if_neg hc2, hd4, if_pos (⟨rfl, hl⟩ : '.' = '.' ∧ y.length = 4)]

theorem digitsToNat_cons (c : Char) (l : List Char) :
    digitsToNat (c :: l) = charVal c * 10 ^ l.length + digitsToNat l := by
  show List.foldl _ (0 * 10 + charVal c) l = _
  rw [foldl_digits]
  ring

/-!
Claim C1.
-/

/-- Claim C1 (amended): in the Date Canonicalizer (`standardize_date`) every
recognized two-digit year YY — slash or dot form — produces canonical year
2000 + YY; the free-text extractor (`extract_date_from_title`), however,
follows CPython `strptime` `%y` (documented in the code comment at line
153): 00-68 → 2000 + YY, 69-99 → 1900 + YY, so e.g. "01.12.68" → 2068 but
"01.12.69" → 1969 (and not 2069 as the claim states). -/
theorem claim_C1 :
    (∀ a b y : List Char,
        (∀ c ∈ a, isDigitC c = true) → (∀ c ∈ b, isDigitC c = true) →
          (∀ c ∈ y, isDigitC c = true) →
            1 ≤ a.length → a.length ≤ 2 → 1 ≤ b.length → b.length ≤ 2 → y.length = 2 →
              yearOfOut (Analyze.standardize_date (a ++ '/' :: (b ++ '/' :: y))) =
                  2000 + digitsToNat y ∧
                yearOfOut (Analyze.standardize_date (a ++ '.' :: (b ++ '.' :: y))) =
                  2000 + digitsToNat y) ∧
      Analyze.extract_date_from_title "01.12.68".data = some "2068-01-12".data ∧
        Analyze.extract_date_from_title "01.12.69".data = some "1969-01-12".data := by
  refine ⟨?_, by decide, by decide⟩
  intro a b y ha hb hy la1 la2 lb1 lb2 hyl
  obtain ⟨u, v, rfl⟩ := List.length_eq_two.mp hyl
  have hslash := standardize_slash a b [u, v] ha hb hy la1 la2 lb1 lb2 (Or.inl rfl)
  have hdot := standardize_dot a b [u, v] ha hb hy la1 la2 lb1 lb2 (Or.inl rfl)
  have hcond : ([u, v] : List Char).length = 2 := rfl
  rw [if_pos hcond] at hslash hdot
  constructor
  · rw [hslash]
    show digitsToNat ['2', '0', u, v] = _
    show (((0 * 10 + charVal '2') * 10 + charVal '0') * 10 + charVal u) * 10 + charVal v = _
    show _ = 2000 + ((0 * 10 + charVal u) * 10 + charVal v)
    have h2 : charVal '2' = 2 := by decide
    have h0 : charVal '0' = 0 := by decide
    rw [h2, h0]
    ring
  · rw [hdot]
    show digitsToNat ['2', '0', u, v] = _
    show (((0 * 10 + charVal '2') * 10 + charVal '0') * 10 + charVal u) * 10 + charVal v = _
    show _ = 2000 + ((0 * 10 + charVal u) * 10 + charVal v)
    have h2 : charVal '2' = 2 := by decide
    have h0 : charVal '0' = 0 := by decide
    rw [h2, h0]
    ring

/-- Witness for claim C1 at concrete digit strings: "03/12/14" and
"03.12.14" both canonicalize with year 2014 = 2000 + 14. -/
theorem claim_C1_witness :
    yearOfOut (Analyze.standardize_date (['0', '3'] ++ '/' :: (['1', '2'] ++ '/' :: ['1', '4']))) =
        2000 + digitsToNat ['1', '4'] ∧
      yearOfOut (Analyze.standardize_date (['0', '3'] ++ '.' :: (['1', '2'] ++ '.' :: ['1', '4']))) =
        2000 + digitsToNat ['1', '4'] :=
  claim_C1.1 ['0', '3'] ['1', '2'] ['1', '4'] (by decide) (by decide) (by decide) (by decide)
    (by decide) (by decide) (by decide) (by decide)

/-- Counterexample to claim C1 as stated: the free-text extractor maps the
two-digit year 69 to 1969 (CPython `%y`), not to 2000 + 69 = 2069. -/
theorem claim_C1_counterexample :
    Analyze.extract_date_from_title "01.12.69".data = some "1969-01-12".data ∧
      yearOfOut "1969-01-12".data = 1969 ∧ (1969 : Nat) ≠ 2000 + 69 := by
  decide

/-!
Claim C4.
-/

theorem zfill2_length (l : List Char) (h : l.length ≤ 2) : (zfill2 l).length = 2 := by
  unfold zfill2
  by_cases h2 : 2 ≤ l.length
  · rw [if_pos h2]
    omega
  · rw [if_neg h2]
    simp
    omega

theorem digitsToNat_replicate_zero (k : Nat) (l : List Char) :
    digitsToNat (List.replicate k '0' ++ l) = digitsToNat l := by
  induction k with
  | zero => rfl
  | succ n ih =>
    show digitsToNat ('0' :: (List.replicate n '0' ++ l)) = _
    show List.foldl _ (0 * 10 + charVal '0') (List.replicate n '0' ++ l) = _
    have h0 : 0 * 10 + charVal '0' = 0 := by decide
    rw [h0]
    exact ih

theorem digitsToNat_zfill2 (l : List Char) : digitsToNat (zfill2 l) = digitsToNat l := by
  unfold zfill2
  by_cases h2 : 2 ≤ l.length
  · rw [if_pos h2]
  · rw [if_neg h2]
    exact digitsToNat_replicate_zero _ l

/-- Claim C4: dotted dates are read day-month-year and slashed dates
month-day-year, so for identical digit triples the dot form canonicalizes
with day and month in swapped positions, and the two canonical results
differ whenever the digit in day position exceeds 12 while the digit in
month position is at most 12. -/
theorem claim_C4 :
    ∀ a b y : List Char,
      (∀ c ∈ a, isDigitC c = true) → (∀ c ∈ b, isDigitC c = true) →
        (∀ c ∈ y, isDigitC c = true) →
          1 ≤ a.length → a.length ≤ 2 → 1 ≤ b.length → b.length ≤ 2 →
            y.length = 2 ∨ y.length = 4 →
              Analyze.standardize_date (a ++ '.' :: (b ++ '.' :: y)) =
                  (if y.length = 2 then '2' :: '0' :: y else y) ++
                    '-' :: zfill2 b ++ '-' :: zfill2 a ∧
                Analyze.standardize_date (a ++ '/' :: (b ++ '/' :: y)) =
                  (if y.length = 2 then '2' :: '0' :: y else y) ++
                    '-' :: zfill2 a ++ '-' :: zfill2 b ∧
                (12 < digitsToNat a → digitsToNat b ≤ 12 →
                  Analyze.standardize_date (a ++ '.' :: (b ++ '.' :: y)) ≠
                    Analyze.standardize_date (a ++ '/' :: (b ++ '/' :: y))) := by
  intro a b y ha hb hy la1 la2 lb1 lb2 hyl
  have hdot := standardize_dot a b y ha hb hy la1 la2 lb1 lb2 hyl
  have hslash := standardize_slash a b y ha hb hy la1 la2 lb1 lb2 hyl
  refine ⟨hdot, hslash, ?_⟩
  intro hga hlb heq
  rw [hdot, hslash] at heq
  have hlen : ('-' :: zfill2 a : List Char).length = ('-' :: zfill2 b : List Char).length := by
    simp [zfill2_length a la2, zfill2_length b lb2]
  have h2 : ('-' :: zfill2 a : List Char) = '-' :: zfill2 b :=
    (List.append_inj' heq hlen).2
  have h3 : zfill2 a = zfill2 b := by
    injection h2
  have h4 : digitsToNat a = digitsToNat b := by
    rw [← digitsToNat_zfill2 a, ← digitsToNat_zfill2 b, h3]
  omega

/-- Witness for claim C4 at concrete digit strings: "13.03.14" (day 13,
month 03) and "13/03/14" (month 13, day 03) canonicalize differently. -/
theorem claim_C4_witness :
    Analyze.standardize_date (['1', '3'] ++ '.' :: (['0', '3'] ++ '.' :: ['1', '4'])) =
        (if (['1', '4'] : List Char).length = 2 then '2' :: '0' :: ['1', '4'] else ['1', '4']) ++
          '-' :: zfill2 ['0', '3'] ++ '-' :: zfill2 ['1', '3'] ∧
      Analyze.standardize_date (['1', '3'] ++ '/' :: (['0', '3'] ++ '/' :: ['1', '4'])) =
        (if (['1', '4'] : List Char).length = 2 then '2' :: '0' :: ['1', '4'] else ['1', '4']) ++
          '-' :: zfill2 ['1', '3'] ++ '-' :: zfill2 ['0', '3'] ∧
        Analyze.standardize_date (['1', '3'] ++ '.' :: (['0', '3'] ++ '.' :: ['1', '4'])) ≠
          Analyze.standardize_date (['1', '3'] ++ '/' :: (['0', '3'] ++ '/' :: ['1', '4'])) := by
  have h := claim_C4 ['1', '3'] ['0', '3'] ['1', '4'] (by decide) (by decide) (by decide)
    (by decide) (by decide) (by decide) (by decide) (Or.inl (by decide))
  exact ⟨h.1, h.2.1, h.2.2 (by decide) (by decide)⟩

/-!
Claim C3.
-/

theorem spanDigits_digits : ∀ s : List Char, ∀ c ∈ (spanDigits s).1, isDigitC c = true := by
  intro s
  induction s with
  | nil =>
    intro c hc
    simp [spanDigits] at hc
  | cons c0 r ih =>
    intro c hc
    by_cases h : isDigitC c0 = true
    · simp [spanDigits, h] at hc
      rcases hc with rfl | hc
      · exact h
      · exact ih c hc
    · simp [spanDigits, h] at hc

theorem matchSep_sound {sep : Char} {ylen : Nat} {s a b y : List Char}
    (h : Analyze.matchSep sep ylen s = some (a, b, y)) :
    (∀ c ∈ a, isDigitC c = true) ∧ 1 ≤ a.length ∧ a.length ≤ 2 ∧
      (∀ c ∈ b, isDigitC c = true) ∧ 1 ≤ b.length ∧ b.length ≤ 2 ∧
        (∀ c ∈ y, isDigitC c = true) ∧ y.length = ylen := by
  simp only [Analyze.matchSep] at h
  rcases h0 : spanDigits s with ⟨a0, rest0⟩
  have e1 : (spanDigits s).1 = a0 := by rw [h0]
  have e2 : (spanDigits s).2 = rest0 := by rw [h0]
  rw [e1, e2] at h
  by_cases h1 : 1 ≤ a0.length ∧ a0.length ≤ 2
  case neg =>
    rw [if_neg h1] at h
    cases h
  rw [if_pos h1] at h
  cases rest0 with
  | nil => cases h
  | cons c1 r1 =>
    dsimp only at h
    by_cases hc1 : c1 = sep
    case neg =>
      rw [if_neg hc1] at h
      cases h
    rw [if_pos hc1] at h
    rcases h2 : spanDigits r1 with ⟨b0, rest1⟩
    have e3 : (spanDigits r1).1 = b0 := by rw [h2]
    have e4 : (spanDigits r1).2 = rest1 := by rw [h2]
    rw [e3, e4] at h
    by_cases h3 : 1 ≤ b0.length ∧ b0.length ≤ 2
    case neg =>
      rw [if_neg h3] at h
      cases h
    rw [if_pos h3] at h
    cases rest1 with
    | nil => cases h
    | cons c2 r2 =>
      dsimp only at h
      by_cases hc2 : c2 = sep
      case neg =>
        rw [if_neg hc2] at h
        cases h
      rw [if_pos hc2] at h
      rcases h4 : spanDigits r2 with ⟨y0, rest2⟩
      have e5 : (spanDigits r2).1 = y0 := by rw [h4]
      have e6 : (spanDigits r2).2 = rest2 := by rw [h4]
      rw [e5, e6] at h
      by_cases h5 : y0.length = ylen ∧ rest2 = []
      case neg =>
        rw [if_neg h5] at h
        cases h
      rw [if_pos h5] at h
      have h6 : (a0, b0, y0) = (a, b, y) := by
        injection h
      obtain ⟨ea, eb, ey⟩ : a0 = a ∧ b0 = b ∧ y0 = y := by
        simpa [Prod.ext_iff] using h6
      subst ea
      subst eb
      subst ey
      refine ⟨?_, h1.1, h1.2, ?_, h3.1, h3.2, ?_, h5.1⟩
      · have hd := spanDigits_digits s
        rw [e1] at hd
        exact hd
      · have hd := spanDigits_digits r1
        rw [e3] at hd
        exact hd
      · have hd := spanDigits_digits r2
        rw [e5] at hd
        exact hd

theorem zfill2_digits (l : List Char) (hl : ∀ c ∈ l, isDigitC c = true) :
    ∀ c ∈ zfill2 l, isDigitC c = true := by
  intro c hc
  unfold zfill2 at hc
  by_cases h2 : 2 ≤ l.length
  · rw [if_pos h2] at hc
    exact hl c hc
  · rw [if_neg h2] at hc
    rcases List.mem_append.mp hc with hm | hm
    · rw [List.eq_of_mem_replicate hm]
      decide
    · exact hl c hm

theorem digits_20cons (u v : Char) (hu : isDigitC u = true) (hv : isDigitC v = true) :
    ∀ c ∈ ('2' :: '0' :: [u, v] : List Char), isDigitC c = true := by
  intro c hc
  simp only [List.mem_cons, List.mem_singleton] at hc
  rcases hc with rfl | rfl | rfl | rfl | hfalse
  · decide
  · decide
  · exact hu
  · exact hv
  · cases hfalse

/-- The canonical "YYYY-MM-DD" shape of the three rendered components: 4
digit characters, dash, 2 digits, dash, 2 digits; the month and day
components, being 2-digit numbers, are at most 99. -/
theorem shape_core (yy zm zd : List Char) (hyy : ∀ c ∈ yy, isDigitC c = true)
    (hyl : yy.length = 4) (hzm : ∀ c ∈ zm, isDigitC c = true) (hzml : zm.length = 2)
    (hzd : ∀ c ∈ zd, isDigitC c = true) (hzdl : zd.length = 2) :
    Analyze.matchYMDFull ((yy ++ '-' :: zm) ++ ('-' :: zd)) = true ∧
      monthOfOut ((yy ++ '-' :: zm) ++ ('-' :: zd)) ≤ 99 ∧
        dayOfOut ((yy ++ '-' :: zm) ++ ('-' :: zd)) ≤ 99 := by
  rcases yy with _ | ⟨y1, _ | ⟨y2, _ | ⟨y3, _ | ⟨y4, yr⟩⟩⟩⟩ <;> simp at hyl
  subst hyl
  obtain ⟨m1, m2, rfl⟩ := List.length_eq_two.mp hzml
  obtain ⟨d1, d2, rfl⟩ := List.length_eq_two.mp hzdl
  have hy1 := hyy y1 (by simp)
  have hy2 := hyy y2 (by simp)
  have hy3 := hyy y3 (by simp)
  have hy4 := hyy y4 (by simp)
  have hm1 := hzm m1 (by simp)
  have hm2 := hzm m2 (by simp)
  have hd1 := hzd d1 (by simp)
  have hd2 := hzd d2 (by simp)
  have hlist : ((([y1, y2, y3, y4] : List Char) ++ '-' :: [m1, m2]) ++ ('-' :: [d1, d2])) =
      [y1, y2, y3, y4, '-', m1, m2, '-', d1, d2] := rfl
  rw [hlist]
  refine ⟨?_, ?_, ?_⟩
  · simp [Analyze.matchYMDFull, hy1, hy2, hy3, hy4, hm1, hm2, hd1, hd2]
  · exact digitsToNat_two_le hm1 hm2
  · exact digitsToNat_two_le hd1 hd2

theorem matchISOStart_sound {s l : List Char} (h : Analyze.matchISOStart s = some l) :
    Analyze.matchYMDFull l = true ∧ monthOfOut l ≤ 99 ∧ dayOfOut l ≤ 99 := by
  unfold Analyze.matchISOStart at h
  split at h
  case h_2 => cases h
  case h_1 y1 y2 y3 y4 m1 m2 d1 d2 rest =>
    split at h
    case isFalse => cases h
    case isTrue hdig =>
      obtain ⟨hy1, hy2, hy3, hy4, hm1, hm2, hd1, hd2⟩ := hdig
      have hl : l = [y1, y2, y3, y4, '-', m1, m2, '-', d1, d2] :=
        (Option.some_inj.mp h).symm
      subst hl
      refine ⟨?_, ?_, ?_⟩
      · simp [Analyze.matchYMDFull, hy1, hy2, hy3, hy4, hm1, hm2, hd1, hd2]
      · exact digitsToNat_two_le hm1 hm2
      · exact digitsToNat_two_le hd1 hd2

theorem matchYMDFull_sound {s : List Char} (h : Analyze.matchYMDFull s = true) :
    monthOfOut s ≤ 99 ∧ dayOfOut s ≤ 99 := by
  unfold Analyze.matchYMDFull at h
  split at h
  case h_2 => cases h
  case h_1 y1 y2 y3 y4 m1 m2 d1 d2 =>
    simp only [Bool.and_eq_true] at h
    obtain ⟨⟨⟨⟨⟨⟨⟨hy1, hy2⟩, hy3⟩, hy4⟩, hm1⟩, hm2⟩, hd1⟩, hd2⟩ := h
    exact ⟨digitsToNat_two_le hm1 hm2, digitsToNat_two_le hd1 hd2⟩

theorem matchYYYYFull_sound {s : List Char} (h : Analyze.matchYYYYFull s = true) :
    Analyze.matchYMDFull (s ++ jan1) = true ∧ monthOfOut (s ++ jan1) ≤ 99 ∧
      dayOfOut (s ++ jan1) ≤ 99 := by
  unfold Analyze.matchYYYYFull at h
  split at h
  case h_2 => cases h
  case h_1 y1 y2 y3 y4 =>
    simp only [Bool.and_eq_true] at h
    obtain ⟨⟨⟨hy1, hy2⟩, hy3⟩, hy4⟩ := h
    have hlist : (([y1, y2, y3, y4] : List Char) ++ jan1) =
        [y1, y2, y3, y4, '-', '0', '1', '-', '0', '1'] := rfl
    rw [hlist]
    refine ⟨?_, ?_, ?_⟩
    · simp [Analyze.matchYMDFull, hy1, hy2, hy3, hy4,
        (by decide : isDigitC '0' = true), (by decide : isDigitC '1' = true)]
    · exact (by decide : digitsToNat ['0', '1'] ≤ 99)
    · exact (by decide : digitsToNat ['0', '1'] ≤ 99)

/-- Claim C3 (amended): for every input matching one of the recognized
shapes, the Date Canonicalizer's output has the textual shape
"YYYY-MM-DD" — four digits, dash, two digits, dash, two digits — so the
month and day components are two-digit values in [00,99].  The claimed
bounds month ∈ [01,12] and day ∈ [01,31] do not hold: the digit patterns
`\d{1,2}` accept any one- or two-digit value and no range check is
performed (see the counterexample). -/
theorem claim_C3 :
    ∀ s : List Char, Analyze.recognizedDate s = true →
      Analyze.matchYMDFull (Analyze.standardize_date s) = true ∧
        monthOfOut (Analyze.standardize_date s) ≤ 99 ∧
          dayOfOut (Analyze.standardize_date s) ≤ 99 := by
  intro s hrec
  have hne : s ≠ [] := by
    unfold Analyze.recognizedDate at hrec
    rw [Bool.and_eq_true] at hrec
    exact of_decide_eq_true hrec.1
  unfold Analyze.standardize_date
  rw [if_neg hne]
  cases h1 : Analyze.matchSep '/' 2 s with
  | some g =>
    rcases g with ⟨m, d, y⟩
    obtain ⟨hmd, hm1, hm2, hdd, hd1, hd2, hyd, hyl⟩ := matchSep_sound h1
    obtain ⟨u, v, rfl⟩ := List.length_eq_two.mp hyl
    exact shape_core ('2' :: '0' :: [u, v]) (zfill2 m) (zfill2 d)
      (digits_20cons u v (hyd u (by simp)) (hyd v (by simp)))
      rfl (zfill2_digits m hmd) (zfill2_length m hm2) (zfill2_digits d hdd)
      (zfill2_length d hd2)
  | none =>
    cases h2 : Analyze.matchSep '/' 4 s with
    | some g =>
      rcases g with ⟨m, d, y⟩
      obtain ⟨hmd, hm1, hm2, hdd, hd1, hd2, hyd, hyl⟩ := matchSep_sound h2
      exact shape_core y (zfill2 m) (zfill2 d) hyd hyl (zfill2_digits m hmd)
        (zfill2_length m hm2) (zfill2_digits d hdd) (zfill2_length d hd2)
    | none =>
      cases h3 : Analyze.matchSep '.' 2 s with
      | some g =>
        rcases g with ⟨d, m, y⟩
        obtain ⟨hdd, hd1, hd2, hmd, hm1, hm2, hyd, hyl⟩ := matchSep_sound h3
        obtain ⟨u, v, rfl⟩ := List.length_eq_two.mp hyl
        exact shape_core ('2' :: '0' :: [u, v]) (zfill2 m) (zfill2 d)
          (digits_20cons u v (hyd u (by simp)) (hyd v (by simp)))
          rfl (zfill2_digits m hmd) (zfill2_length m hm2) (zfill2_digits d hdd)
          (zfill2_length d hd2)
      | none =>
        cases h4 : Analyze.matchSep '.' 4 s with
        | some g =>
          rcases g with ⟨d, m, y⟩
          obtain ⟨hdd, hd1, hd2, hmd, hm1, hm2, hyd, hyl⟩ := matchSep_sound h4
          exact shape_core y (zfill2 m) (zfill2 d) hyd hyl (zfill2_digits m hmd)
            (zfill2_length m hm2) (zfill2_digits d hdd) (zfill2_length d hd2)
        | none =>
          cases h5 : Analyze.matchISOStart s with
          | some l => exact matchISOStart_sound h5
          | none =>
            by_cases h6 : Analyze.matchYMDFull s = true
            · rw [if_pos h6]
              exact ⟨h6, matchYMDFull_sound h6⟩
            · rw [if_neg h6]
              by_cases h7 : Analyze.matchYYYYFull s = true
              · rw [if_pos h7]
                exact matchYYYYFull_sound h7
              · exfalso
                unfold Analyze.recognizedDate at hrec
                simp [h1, h2, h3, h4, h5, h6, h7] at hrec

/-- Witness for claim C3 at a concrete recognized input: "03/12/14". -/
theorem claim_C3_witness :
    Analyze.matchYMDFull (Analyze.standardize_date "03/12/14".data) = true ∧
      monthOfOut (Analyze.standardize_date "03/12/14".data) ≤ 99 ∧
        dayOfOut (Analyze.standardize_date "03/12/14".data) ≤ 99 :=
  claim_C3 "03/12/14".data (by decide)

/-- Counterexample to claim C3 as stated: "13/45/2014" matches the
recognized slash shape and canonicalizes to "2014-13-45", whose month
component 13 is outside [01,12] and whose day component 45 is outside
[01,31]. -/
theorem claim_C3_counterexample :
    Analyze.recognizedDate "13/45/2014".data = true ∧
      Analyze.standardize_date "13/45/2014".data = "2014-13-45".data ∧
        ¬(monthOfOut (Analyze.standardize_date "13/45/2014".data) ≤ 12) ∧
          ¬(dayOfOut (Analyze.standardize_date "13/45/2014".data) ≤ 31) := by
  decide

/-!
Claim C10.
-/

theorem orElse_eq_some {α : Type} {x : Option α} {f : Unit → Option α} {a : α}
    (h : x.orElse f = some a) : x = some a ∨ (x = none ∧ f () = some a) := by
  cases x with
  | some v => exact Or.inl h
  | none => exact Or.inr ⟨rfl, h⟩

theorem searchBy_some {α : Type} (f : List Char → Option α) :
    ∀ (l : List Char) (a : α), Analyze.searchBy f l = some a → ∃ suf, f suf = some a
  | [], _, h => ⟨[], h⟩
  | c :: r, a, h => by
    rcases orElse_eq_some h with h1 | ⟨_, h2⟩
    · exact ⟨c :: r, h1⟩
    · exact searchBy_some f r a h2

theorem takeDigitsN_sound :
    ∀ (n : Nat) (s t r : List Char), Analyze.takeDigitsN n s = some (t, r) →
      t.length = n ∧ (∀ c ∈ t, isDigitC c = true) := by
  intro n
  induction n with
  | zero =>
    intro s t r h
    have he : (([], s) : List Char × List Char) = (t, r) := by
      injection h
    have ht : t = [] := (congrArg Prod.fst he).symm
    subst ht
    exact ⟨rfl, by simp⟩
  | succ n ih =>
    intro s t r h
    cases s with
    | nil => cases h
    | cons c s' =>
      unfold Analyze.takeDigitsN at h
      by_cases hc : isDigitC c = true
      · rw [if_pos hc] at h
        cases hinner : Analyze.takeDigitsN n s' with
        | none =>
          rw [hinner] at h
          cases h
        | some p =>
          rcases p with ⟨t', r'⟩
          rw [hinner] at h
          have he : ((c :: t', r') : List Char × List Char) = (t, r) := by
            injection h
          have ht : t = c :: t' := (congrArg Prod.fst he).symm
          subst ht
          obtain ⟨hl, hd⟩ := ih s' t' r' hinner
          refine ⟨by simp [hl], ?_⟩
          intro x hx
          rcases List.mem_cons.mp hx with rfl | hx
          · exact hc
          · exact hd x hx
      · rw [if_neg hc] at h
        cases h

theorem strptimeValid_bounds (y m d : Nat) (h : Analyze.strptimeValid y m d = true) :
    1 ≤ y ∧ y ≤ 9999 ∧ 1 ≤ m ∧ m ≤ 12 ∧ 1 ≤ d ∧ d ≤ Analyze.daysInMonth y m := by
  unfold Analyze.strptimeValid at h
  simp only [Bool.and_eq_true, decide_eq_true_eq] at h
  obtain ⟨⟨⟨⟨⟨h1, h2⟩, h3⟩, h4⟩, h5⟩, h6⟩ := h
  exact ⟨h1, h2, h3, h4, h5, h6⟩

theorem daysInMonth_le (y m : Nat) : Analyze.daysInMonth y m ≤ 31 := by
  unfold Analyze.daysInMonth
  split_ifs <;> omega

theorem validateYMD_sound {y m d : List Char} {s : List Char}
    (h : Analyze.validateYMD y m d = some s) :
    Analyze.strptimeValid (digitsToNat y) (digitsToNat m) (digitsToNat d) = true ∧
      s = Analyze.renderYMD (digitsToNat y) (digitsToNat m) (digitsToNat d) := by
  simp only [Analyze.validateYMD] at h
  split at h
  case isTrue hv => exact ⟨hv, (Option.some_inj.mp h).symm⟩
  case isFalse => cases h

theorem validateMDY2_sound {m d yy : List Char} {s : List Char}
    (h : Analyze.validateMDY2 m d yy = some s) :
    Analyze.strptimeValid (Analyze.pyTwoDigitYear (digitsToNat yy)) (digitsToNat m)
        (digitsToNat d) = true ∧
      s = Analyze.renderYMD (Analyze.pyTwoDigitYear (digitsToNat yy)) (digitsToNat m)
          (digitsToNat d) := by
  simp only [Analyze.validateMDY2] at h
  split at h
  case isTrue hv => exact ⟨hv, (Option.some_inj.mp h).symm⟩
  case isFalse => cases h

theorem monthOfOut_render (y m d : Nat) (hm : m ≤ 99) :
    monthOfOut (Analyze.renderYMD y m d) = m := by
  show (0 * 10 + charVal (digitChar (m / 10 % 10))) * 10 + charVal (digitChar (m % 10)) = m
  rw [charVal_digitChar (by omega), charVal_digitChar (by omega)]
  omega

theorem dayOfOut_render (y m d : Nat) (hd : d ≤ 99) :
    dayOfOut (Analyze.renderYMD y m d) = d := by
  show (0 * 10 + charVal (digitChar (d / 10 % 10))) * 10 + charVal (digitChar (d % 10)) = d
  rw [charVal_digitChar (by omega), charVal_digitChar (by omega)]
  omega

theorem yearOfOut_render (y m d : Nat) (hy : y ≤ 9999) :
    yearOfOut (Analyze.renderYMD y m d) = y := by
  show (((0 * 10 + charVal (digitChar (y / 1000 % 10))) * 10 +
        charVal (digitChar (y / 100 % 10))) * 10 +
      charVal (digitChar (y / 10 % 10))) * 10 + charVal (digitChar (y % 10)) = y
  rw [charVal_digitChar (by omega), charVal_digitChar (by omega),
    charVal_digitChar (by omega), charVal_digitChar (by omega)]
  omega

theorem valid_render_bounds {y m d : Nat} (hv : Analyze.strptimeValid y m d = true) :
    1 ≤ monthOfOut (Analyze.renderYMD y m d) ∧ monthOfOut (Analyze.renderYMD y m d) ≤ 12 ∧
      1 ≤ dayOfOut (Analyze.renderYMD y m d) ∧
        dayOfOut (Analyze.renderYMD y m d) ≤
          Analyze.daysInMonth (yearOfOut (Analyze.renderYMD y m d))
            (monthOfOut (Analyze.renderYMD y m d)) := by
  obtain ⟨h1, h2, h3, h4, h5, h6⟩ := strptimeValid_bounds y m d hv
  have hdm := daysInMonth_le y m
  rw [monthOfOut_render y m d (by omega), dayOfOut_render y m d (by omega),
    yearOfOut_render y m d (by omega)]
  exact ⟨h3, h4, h5, h6⟩

theorem bare_year_bounds {t y : List Char}
    (hsearch : Analyze.searchBy Analyze.yearAt t = some y) :
    1 ≤ monthOfOut (y ++ jan1) ∧ monthOfOut (y ++ jan1) ≤ 12 ∧ 1 ≤ dayOfOut (y ++ jan1) ∧
      dayOfOut (y ++ jan1) ≤
        Analyze.daysInMonth (yearOfOut (y ++ jan1)) (monthOfOut (y ++ jan1)) := by
  obtain ⟨suf, hf⟩ := searchBy_some _ t y hsearch
  unfold Analyze.yearAt at hf
  cases heq : Analyze.takeDigitsN 4 suf with
  | none =>
    rw [heq] at hf
    cases hf
  | some p =>
    rcases p with ⟨y0, r0⟩
    rw [heq] at hf
    have hy : y0 = y := Option.some_inj.mp hf
    subst hy
    have hlen := (takeDigitsN_sound 4 suf y0 r0 heq).1
    rcases y0 with _ | ⟨c1, _ | ⟨c2, _ | ⟨c3, _ | ⟨c4, yr⟩⟩⟩⟩ <;> simp at hlen
    subst hlen
    refine ⟨?_, ?_, ?_, ?_⟩
    · exact (by decide : (1 : Nat) ≤ (0 * 10 + charVal '0') * 10 + charVal '1')
    · exact (by decide : (0 * 10 + charVal '0') * 10 + charVal '1' ≤ 12)
    · exact (by decide : (1 : Nat) ≤ (0 * 10 + charVal '0') * 10 + charVal '1')
    · show (0 * 10 + charVal '0') * 10 + charVal '1' ≤
        Analyze.daysInMonth _ ((0 * 10 + charVal '0') * 10 + charVal '1')
      have h1 : (0 * 10 + charVal '0') * 10 + charVal '1' = 1 := by decide
      rw [h1]
      have h31 : ∀ yv, Analyze.daysInMonth yv 1 = 31 := by
        intro yv
        unfold Analyze.daysInMonth
        norm_num
      rw [h31]
      omega

/-- Claim C10: the free-text date extractor calendar-validates every
candidate through `strptime`; an invalid match (month 13, day 31 in a
30-day month, Feb 29 in a non-leap year, ...) is silently skipped and later
patterns — including the bare year — are still tried (witnessed by
"13.01.2014", whose dotted matches both fail validation and which therefore
extracts as "2014-01-01" from the bare-year pattern).  Consequently every
returned date has month ∈ [1,12] and a day valid for that month and year —
including the bare-year case, which always renders day 01 of month 01. -/
theorem claim_C10 :
    (∀ t s : List Char, Analyze.extract_date_from_title t = some s →
        1 ≤ monthOfOut s ∧ monthOfOut s ≤ 12 ∧ 1 ≤ dayOfOut s ∧
          dayOfOut s ≤ Analyze.daysInMonth (yearOfOut s) (monthOfOut s)) ∧
      Analyze.extract_date_from_title "13.01.2014".data = some "2014-01-01".data := by
  refine ⟨?_, by decide⟩
  intro t s h
  unfold Analyze.extract_date_from_title at h
  rcases orElse_eq_some h with h1 | ⟨_, h⟩
  · cases hsr : Analyze.searchBy Analyze.isoAt t with
    | none =>
      rw [hsr] at h1
      cases h1
    | some g =>
      rw [hsr] at h1
      obtain ⟨hv, hs⟩ :=
        validateYMD_sound (show Analyze.validateYMD g.1 g.2.1 g.2.2 = some s from h1)
      rw [hs]
      exact valid_render_bounds hv
  rcases orElse_eq_some h with h1 | ⟨_, h⟩
  · cases hsr : Analyze.searchBy (Analyze.mdyAt '/' 4) t with
    | none =>
      rw [hsr] at h1
      cases h1
    | some g =>
      rw [hsr] at h1
      obtain ⟨hv, hs⟩ :=
        validateYMD_sound (show Analyze.validateYMD g.2.2 g.1 g.2.1 = some s from h1)
      rw [hs]
      exact valid_render_bounds hv
  rcases orElse_eq_some h with h1 | ⟨_, h⟩
  · cases hsr : Analyze.searchBy (Analyze.mdyAt '.' 4) t with
    | none =>
      rw [hsr] at h1
      cases h1
    | some g =>
      rw [hsr] at h1
      obtain ⟨hv, hs⟩ :=
        validateYMD_sound (show Analyze.validateYMD g.2.2 g.1 g.2.1 = some s from h1)
      rw [hs]
      exact valid_render_bounds hv
  rcases orElse_eq_some h with h1 | ⟨_, h⟩
  · cases hsr : Analyze.searchBy (Analyze.mdyAt '/' 2) t with
    | none =>
      rw [hsr] at h1
      cases h1
    | some g =>
      rw [hsr] at h1
      obtain ⟨hv, hs⟩ :=
        validateMDY2_sound (show Analyze.validateMDY2 g.1 g.2.1 g.2.2 = some s from h1)
      rw [hs]
      exact valid_render_bounds hv
  rcases orElse_eq_some h with h1 | ⟨_, h⟩
  · cases hsr : Analyze.searchBy (Analyze.mdyAt '.' 2) t with
    | none =>
      rw [hsr] at h1
      cases h1
    | some g =>
      rw [hsr] at h1
      obtain ⟨hv, hs⟩ :=
        validateMDY2_sound (show Analyze.validateMDY2 g.1 g.2.1 g.2.2 = some s from h1)
      rw [hs]
      exact valid_render_bounds hv
  · cases hsr : Analyze.searchBy Analyze.yearAt t with
    | none =>
      rw [hsr] at h
      cases h
    | some y =>
      rw [hsr] at h
      have hs : s = y ++ jan1 := (Option.some_inj.mp h).symm
      rw [hs]
      exact bare_year_bounds hsr

/-- Witness for claim C10 at a concrete input: "x 02.29.12 y" extracts the
leap-day "2012-02-29", whose month and day satisfy the calendar bounds. -/
theorem claim_C10_witness :
    1 ≤ monthOfOut "2012-02-29".data ∧ monthOfOut "2012-02-29".data ≤ 12 ∧
      1 ≤ dayOfOut "2012-02-29".data ∧
        dayOfOut "2012-02-29".data ≤
          Analyze.daysInMonth (yearOfOut "2012-02-29".data) (monthOfOut "2012-02-29".data) :=
  claim_C10.1 "x 02.29.12 y".data "2012-02-29".data (by decide)

end ArchiveSpec
